import Mathlib

/-!
Shallow embedding of the MatterTLVParser core (src/errors.rs, src/util.rs,
src/tags.rs, src/types.rs, src/reader.rs, src/writer.rs).

Bytes are modelled as `Nat` (with explicit `< 2^8` hypotheses where a value
must be a byte), byte buffers as `List Nat`, fallible operations as
`Except TLVError`.  Floating-point values are modelled by their little-endian
bit patterns (a `Nat < 2^32` / `< 2^64`), since the codec only moves their
bytes and never does float arithmetic.  Signed machine integers are `Int`
with explicit two's-complement conversion at the byte boundary.
-/

namespace MatterTLV

deriving instance DecidableEq for Except

/-- Error vocabulary of `src/errors.rs` (`TLVError`). -/
inductive TLVError where
  | UnderRun
  | EndOfTLV
  | InvalidTag
  | InvalidType
  | ParseError
  | Internal (msg : String)
deriving DecidableEq, Repr

/-- Little-endian byte list of `n`, `w` bytes wide: the model of Rust
`to_le_bytes` (truncating to the width, as the `as`-casts in the source do). -/
def toLE : Nat → Nat → List Nat
  | 0, _ => []
  | w + 1, n => n % 2 ^ 8 :: toLE w (n / 2 ^ 8)

/-- Model of `util::parse_u8` / `TLVReader::parse_u8` (nom `le_u8`): one byte,
`ParseError` when the input is exhausted. -/
def parse_u8 : List Nat → Except TLVError (List Nat × Nat)
  | b :: rest => .ok (rest, b)
  | [] => .error .ParseError

/-- Model of `util::parse_u16` / `TLVReader::parse_u16` (nom `le_u16`). -/
def parse_u16 : List Nat → Except TLVError (List Nat × Nat)
  | b0 :: b1 :: rest => .ok (rest, b0 + 2 ^ 8 * b1)
  | _ => .error .ParseError

/-- Model of `util::parse_u32` / `TLVReader::parse_u32` (nom `le_u32`). -/
def parse_u32 : List Nat → Except TLVError (List Nat × Nat)
  | b0 :: b1 :: b2 :: b3 :: rest =>
    .ok (rest, b0 + 2 ^ 8 * b1 + 2 ^ 16 * b2 + 2 ^ 24 * b3)
  | _ => .error .ParseError

/-- Model of `util::parse_u64` / `TLVReader::parse_u64` (nom `le_u64`). -/
def parse_u64 : List Nat → Except TLVError (List Nat × Nat)
  | b0 :: b1 :: b2 :: b3 :: b4 :: b5 :: b6 :: b7 :: rest =>
    .ok (rest, b0 + 2 ^ 8 * b1 + 2 ^ 16 * b2 + 2 ^ 24 * b3 + 2 ^ 32 * b4 +
      2 ^ 40 * b5 + 2 ^ 48 * b6 + 2 ^ 56 * b7)
  | _ => .error .ParseError

/-- Two's-complement reinterpretation of a `w`-byte unsigned value, the
semantics of nom's `le_i8` … `le_i64` relative to `le_u8` … `le_u64`. -/
def asSigned (w n : Nat) : Int :=
  if n < 2 ^ (8 * w - 1) then (n : Int) else (n : Int) - 2 ^ (8 * w)

/-- Model of nom `le_i8` (used directly by `TLVReader::read_i8`). -/
def parse_i8 (bytes : List Nat) : Except TLVError (List Nat × Int) :=
  match parse_u8 bytes with
  | .error e => .error e
  | .ok (rest, n) => .ok (rest, asSigned 1 n)

/-- Model of nom `le_i16` (used directly by `TLVReader::read_i16`). -/
def parse_i16 (bytes : List Nat) : Except TLVError (List Nat × Int) :=
  match parse_u16 bytes with
  | .error e => .error e
  | .ok (rest, n) => .ok (rest, asSigned 2 n)

/-- Model of nom `le_i32` (used directly by `TLVReader::read_i32`). -/
def parse_i32 (bytes : List Nat) : Except TLVError (List Nat × Int) :=
  match parse_u32 bytes with
  | .error e => .error e
  | .ok (rest, n) => .ok (rest, asSigned 4 n)

/-- Model of nom `le_i64` (used directly by `TLVReader::read_i64`). -/
def parse_i64 (bytes : List Nat) : Except TLVError (List Nat × Int) :=
  match parse_u64 bytes with
  | .error e => .error e
  | .ok (rest, n) => .ok (rest, asSigned 8 n)

/-- Model of nom `le_f32` at the bit level (used by `TLVReader::read_f32`):
the recovered `f32` is exactly the 32-bit little-endian pattern read. -/
def parse_f32bits (bytes : List Nat) : Except TLVError (List Nat × Nat) :=
  parse_u32 bytes

/-- Model of nom `le_f64` at the bit level (used by `TLVReader::read_f64`). -/
def parse_f64bits (bytes : List Nat) : Except TLVError (List Nat × Nat) :=
  parse_u64 bytes

/-- All entries of a buffer are bytes. -/
def allBytes (bytes : List Nat) : Bool :=
  bytes.all (fun b => b < 2 ^ 8)

/-! ## Tag model (src/tags.rs) -/

/-- The eight tag-control families (`tags.rs` `TagControl`). -/
inductive TagControl where
  | Anonymous
  | ContextSpecific
  | CommonProfile2Bytes
  | CommonProfile4Bytes
  | ImplicitProfile2Bytes
  | ImplicitProfile4Bytes
  | FullyQualified6Bytes
  | FullyQualified8Bytes
deriving DecidableEq, Repr

/-- Discriminant values of `TagControl` (`#[repr(u8)]` constants). -/
def TagControl.val : TagControl → Nat
  | .Anonymous => 0x00
  | .ContextSpecific => 0x20
  | .CommonProfile2Bytes => 0x40
  | .CommonProfile4Bytes => 0x60
  | .ImplicitProfile2Bytes => 0x80
  | .ImplicitProfile4Bytes => 0xA0
  | .FullyQualified6Bytes => 0xC0
  | .FullyQualified8Bytes => 0xE0

/-- Model of `TryFrom<u8> for TagControl` (`from_u8`, exact discriminant
match): `InvalidTag` for any byte that is not one of the 8 constants. -/
def TagControl.tryFrom (tag_control_byte : Nat) : Except TLVError TagControl :=
  match tag_control_byte with
  | 0x00 => .ok .Anonymous
  | 0x20 => .ok .ContextSpecific
  | 0x40 => .ok .CommonProfile2Bytes
  | 0x60 => .ok .CommonProfile4Bytes
  | 0x80 => .ok .ImplicitProfile2Bytes
  | 0xA0 => .ok .ImplicitProfile4Bytes
  | 0xC0 => .ok .FullyQualified6Bytes
  | 0xE0 => .ok .FullyQualified8Bytes
  | _ => .error .InvalidTag

/-- `tags.rs` `CommonProfileLength`. -/
inductive CommonProfileLength where
  | TwoOctets (tag_number : Nat)
  | FourOctets (tag_number : Nat)
deriving DecidableEq, Repr

/-- `tags.rs` `ImplicitProfileLength`. -/
inductive ImplicitProfileLength where
  | TwoOctets (tag_number : Nat)
  | FourOctets (tag_number : Nat)
deriving DecidableEq, Repr

/-- `tags.rs` `FullyQualifiedProfileLength`. -/
inductive FullyQualifiedProfileLength where
  | SixOctets (vendor_id profile_number tag_number : Nat)
  | EightOctets (vendor_id profile_number tag_number : Nat)
deriving DecidableEq, Repr

/-- `tags.rs` `TLVTag`: the five tag variants. -/
inductive TLVTag where
  | Anonymous
  | ContextSpecific (tag_number : Nat)
  | CommonProfile (p : CommonProfileLength)
  | ImplicitProfile (p : ImplicitProfileLength)
  | FullyQualifiedProfile (p : FullyQualifiedProfileLength)
deriving DecidableEq, Repr

/-- Numeric fields of a tag fit their wire widths (`u8`/`u16`/`u32` in the
Rust type). -/
def tagWF : TLVTag → Bool
  | .Anonymous => true
  | .ContextSpecific n => n < 2 ^ 8
  | .CommonProfile (.TwoOctets n) => n < 2 ^ 16
  | .CommonProfile (.FourOctets n) => n < 2 ^ 32
  | .ImplicitProfile (.TwoOctets n) => n < 2 ^ 16
  | .ImplicitProfile (.FourOctets n) => n < 2 ^ 32
  | .FullyQualifiedProfile (.SixOctets v p n) =>
    v < 2 ^ 16 && p < 2 ^ 16 && n < 2 ^ 16
  | .FullyQualifiedProfile (.EightOctets v p n) =>
    v < 2 ^ 16 && p < 2 ^ 16 && n < 2 ^ 32

/-- `tags.rs` `TLVTag::octets_count`. -/
def TLVTag.octets_count : TLVTag → Nat
  | .Anonymous => 0
  | .ContextSpecific _ => 1
  | .CommonProfile (.TwoOctets _) => 2
  | .CommonProfile (.FourOctets _) => 4
  | .ImplicitProfile (.TwoOctets _) => 2
  | .ImplicitProfile (.FourOctets _) => 4
  | .FullyQualifiedProfile (.SixOctets _ _ _) => 6
  | .FullyQualifiedProfile (.EightOctets _ _ _) => 8

/-- `tags.rs` `impl From<TLVTag> for TagControl`. -/
def TagControl.ofTag : TLVTag → TagControl
  | .Anonymous => .Anonymous
  | .ContextSpecific _ => .ContextSpecific
  | .CommonProfile (.TwoOctets _) => .CommonProfile2Bytes
  | .CommonProfile (.FourOctets _) => .CommonProfile4Bytes
  | .ImplicitProfile (.TwoOctets _) => .ImplicitProfile2Bytes
  | .ImplicitProfile (.FourOctets _) => .ImplicitProfile4Bytes
  | .FullyQualifiedProfile (.SixOctets _ _ _) => .FullyQualified6Bytes
  | .FullyQualifiedProfile (.EightOctets _ _ _) => .FullyQualified8Bytes

/-- `tags.rs` `tag_bytes`: the little-endian wire bytes of a tag. -/
def tag_bytes : TLVTag → List Nat
  | .Anonymous => []
  | .ContextSpecific n => toLE 1 n
  | .CommonProfile (.TwoOctets n) => toLE 2 n
  | .CommonProfile (.FourOctets n) => toLE 4 n
  | .ImplicitProfile (.TwoOctets n) => toLE 2 n
  | .ImplicitProfile (.FourOctets n) => toLE 4 n
  | .FullyQualifiedProfile (.SixOctets v p n) => toLE 2 v ++ toLE 2 p ++ toLE 2 n
  | .FullyQualifiedProfile (.EightOctets v p n) => toLE 2 v ++ toLE 2 p ++ toLE 4 n

/-- `reader.rs` `TLVReader::parse_tag` (identical to `tags.rs` `parse_tag`):
decode the tag-control byte, then the per-variant little-endian tag fields. -/
def parse_tag (tag_control_byte : Nat) (bytes : List Nat) :
    Except TLVError (List Nat × TLVTag) :=
  match TagControl.tryFrom tag_control_byte with
  | .error e => .error e
  | .ok tc =>
    match tc with
    | .Anonymous => .ok (bytes, .Anonymous)
    | .ContextSpecific =>
      match parse_u8 bytes with
      | .error e => .error e
      | .ok (rest, n) => .ok (rest, .ContextSpecific n)
    | .CommonProfile2Bytes =>
      match parse_u16 bytes with
      | .error e => .error e
      | .ok (rest, n) => .ok (rest, .CommonProfile (.TwoOctets n))
    | .CommonProfile4Bytes =>
      match parse_u32 bytes with
      | .error e => .error e
      | .ok (rest, n) => .ok (rest, .CommonProfile (.FourOctets n))
    | .ImplicitProfile2Bytes =>
      match parse_u16 bytes with
      | .error e => .error e
      | .ok (rest, n) => .ok (rest, .ImplicitProfile (.TwoOctets n))
    | .ImplicitProfile4Bytes =>
      match parse_u32 bytes with
      | .error e => .error e
      | .ok (rest, n) => .ok (rest, .ImplicitProfile (.FourOctets n))
    | .FullyQualified6Bytes =>
      match parse_u16 bytes with
      | .error e => .error e
      | .ok (rest, v) =>
        match parse_u16 rest with
        | .error e => .error e
        | .ok (rest, p) =>
          match parse_u16 rest with
          | .error e => .error e
          | .ok (rest, n) =>
            .ok (rest, .FullyQualifiedProfile (.SixOctets v p n))
    | .FullyQualified8Bytes =>
      match parse_u16 bytes with
      | .error e => .error e
      | .ok (rest, v) =>
        match parse_u16 rest with
        | .error e => .error e
        | .ok (rest, p) =>
          match parse_u32 rest with
          | .error e => .error e
          | .ok (rest, n) =>
            .ok (rest, .FullyQualifiedProfile (.EightOctets v p n))

/-! ## Type model (src/types.rs) -/

/-- `types.rs` `ElementType`: the 25 defined 5-bit element-type codes. -/
inductive ElementType where
  | Int8
  | Int16
  | Int32
  | Int64
  | UInt8
  | UInt16
  | UInt32
  | UInt64
  | BooleanFalse
  | BooleanTrue
  | FloatingPointNumber32
  | FloatingPointNumber64
  | UTF8String1ByteLength
  | UTF8String2ByteLength
  | UTF8String4ByteLength
  | UTF8String8ByteLength
  | ByteString1ByteLength
  | ByteString2ByteLength
  | ByteString4ByteLength
  | ByteString8ByteLength
  | Null
  | Structure
  | Array
  | List
  | EndOfContainer
deriving DecidableEq, Repr

/-- Discriminant values of `ElementType` (`#[repr(u8)]` constants
0x00 … 0x18, the fixed wire type codes). -/
def ElementType.code : ElementType → Nat
  | .Int8 => 0x00
  | .Int16 => 0x01
  | .Int32 => 0x02
  | .Int64 => 0x03
  | .UInt8 => 0x04
  | .UInt16 => 0x05
  | .UInt32 => 0x06
  | .UInt64 => 0x07
  | .BooleanFalse => 0x08
  | .BooleanTrue => 0x09
  | .FloatingPointNumber32 => 0x0A
  | .FloatingPointNumber64 => 0x0B
  | .UTF8String1ByteLength => 0x0C
  | .UTF8String2ByteLength => 0x0D
  | .UTF8String4ByteLength => 0x0E
  | .UTF8String8ByteLength => 0x0F
  | .ByteString1ByteLength => 0x10
  | .ByteString2ByteLength => 0x11
  | .ByteString4ByteLength => 0x12
  | .ByteString8ByteLength => 0x13
  | .Null => 0x14
  | .Structure => 0x15
  | .Array => 0x16
  | .List => 0x17
  | .EndOfContainer => 0x18

/-- Model of `TryFrom<u8> for ElementType` (`from_u8`, exact discriminant
match): `InvalidType` for any code outside 0x00 … 0x18. -/
def ElementType.tryFrom (element_type : Nat) : Except TLVError ElementType :=
  match element_type with
  | 0x00 => .ok .Int8
  | 0x01 => .ok .Int16
  | 0x02 => .ok .Int32
  | 0x03 => .ok .Int64
  | 0x04 => .ok .UInt8
  | 0x05 => .ok .UInt16
  | 0x06 => .ok .UInt32
  | 0x07 => .ok .UInt64
  | 0x08 => .ok .BooleanFalse
  | 0x09 => .ok .BooleanTrue
  | 0x0A => .ok .FloatingPointNumber32
  | 0x0B => .ok .FloatingPointNumber64
  | 0x0C => .ok .UTF8String1ByteLength
  | 0x0D => .ok .UTF8String2ByteLength
  | 0x0E => .ok .UTF8String4ByteLength
  | 0x0F => .ok .UTF8String8ByteLength
  | 0x10 => .ok .ByteString1ByteLength
  | 0x11 => .ok .ByteString2ByteLength
  | 0x12 => .ok .ByteString4ByteLength
  | 0x13 => .ok .ByteString8ByteLength
  | 0x14 => .ok .Null
  | 0x15 => .ok .Structure
  | 0x16 => .ok .Array
  | 0x17 => .ok .List
  | 0x18 => .ok .EndOfContainer
  | _ => .error .InvalidType

/-- `types.rs` `SignedInteger`. -/
inductive SignedInteger where
  | Int8
  | Int16
  | Int32
  | Int64
deriving DecidableEq, Repr

/-- `types.rs` `UnsignedInteger`. -/
inductive UnsignedInteger where
  | UInt8
  | UInt16
  | UInt32
  | UInt64
deriving DecidableEq, Repr

/-- `types.rs` `FloatingPoint`. -/
inductive FloatingPoint where
  | FloatingPointNumber32
  | FloatingPointNumber64
deriving DecidableEq, Repr

/-- `types.rs` `PredeterminedLenPrimitive` (boolean value inferred during
type parsing, as in the source). -/
inductive PredeterminedLenPrimitive where
  | SignedInteger (s : SignedInteger)
  | UnsignedInteger (u : UnsignedInteger)
  | FloatingPointNumber (f : FloatingPoint)
  | Boolean (value : Bool)
  | Null
deriving DecidableEq, Repr

/-- `types.rs` `UTF8StrLen`. -/
inductive UTF8StrLen where
  | OneOctet
  | TwoOctets
  | FourOctets
  | EightOctets
deriving DecidableEq, Repr

/-- `types.rs` `ByteStrLen`. -/
inductive ByteStrLen where
  | OneOctet
  | TwoOctets
  | FourOctets
  | EightOctets
deriving DecidableEq, Repr

/-- `types.rs` `SpecifiedLenPrimitive`. -/
inductive SpecifiedLenPrimitive where
  | UTF8String (s : UTF8StrLen)
  | ByteString (s : ByteStrLen)
deriving DecidableEq, Repr

/-- `types.rs` `PrimitiveLengthType`. -/
inductive PrimitiveLengthType where
  | Predetermined (p : PredeterminedLenPrimitive)
  | Specified (s : SpecifiedLenPrimitive)
deriving DecidableEq, Repr

/-- `types.rs` `ContainerType`. -/
inductive ContainerType where
  | Structure
  | Array
  | List
deriving DecidableEq, Repr

/-- Discriminant values of `ContainerType` (0x15 … 0x17). -/
def ContainerType.code : ContainerType → Nat
  | .Structure => 0x15
  | .Array => 0x16
  | .List => 0x17

/-- `types.rs` `TLVType`. -/
inductive TLVType where
  | Primitive (p : PrimitiveLengthType)
  | Container (c : ContainerType)
deriving DecidableEq, Repr

/-- Model of `TryFrom<ElementType> for TLVType`: maps each of the 25 codes to
its semantic type; the `_` fallback (reached only by `EndOfContainer`) fails
`InvalidType`. -/
def TLVType.fromElementType : ElementType → Except TLVError TLVType
  | .Int8 => .ok (.Primitive (.Predetermined (.SignedInteger .Int8)))
  | .Int16 => .ok (.Primitive (.Predetermined (.SignedInteger .Int16)))
  | .Int32 => .ok (.Primitive (.Predetermined (.SignedInteger .Int32)))
  | .Int64 => .ok (.Primitive (.Predetermined (.SignedInteger .Int64)))
  | .UInt8 => .ok (.Primitive (.Predetermined (.UnsignedInteger .UInt8)))
  | .UInt16 => .ok (.Primitive (.Predetermined (.UnsignedInteger .UInt16)))
  | .UInt32 => .ok (.Primitive (.Predetermined (.UnsignedInteger .UInt32)))
  | .UInt64 => .ok (.Primitive (.Predetermined (.UnsignedInteger .UInt64)))
  | .BooleanFalse => .ok (.Primitive (.Predetermined (.Boolean false)))
  | .BooleanTrue => .ok (.Primitive (.Predetermined (.Boolean true)))
  | .FloatingPointNumber32 =>
    .ok (.Primitive (.Predetermined (.FloatingPointNumber .FloatingPointNumber32)))
  | .FloatingPointNumber64 =>
    .ok (.Primitive (.Predetermined (.FloatingPointNumber .FloatingPointNumber64)))
  | .UTF8String1ByteLength => .ok (.Primitive (.Specified (.UTF8String .OneOctet)))
  | .UTF8String2ByteLength => .ok (.Primitive (.Specified (.UTF8String .TwoOctets)))
  | .UTF8String4ByteLength => .ok (.Primitive (.Specified (.UTF8String .FourOctets)))
  | .UTF8String8ByteLength => .ok (.Primitive (.Specified (.UTF8String .EightOctets)))
  | .ByteString1ByteLength => .ok (.Primitive (.Specified (.ByteString .OneOctet)))
  | .ByteString2ByteLength => .ok (.Primitive (.Specified (.ByteString .TwoOctets)))
  | .ByteString4ByteLength => .ok (.Primitive (.Specified (.ByteString .FourOctets)))
  | .ByteString8ByteLength => .ok (.Primitive (.Specified (.ByteString .EightOctets)))
  | .Null => .ok (.Primitive (.Predetermined .Null))
  | .Structure => .ok (.Container .Structure)
  | .Array => .ok (.Container .Array)
  | .List => .ok (.Container .List)
  | .EndOfContainer => .error .InvalidType

/-- `types.rs` `PredeterminedLenPrimitive::value_octets_count`. -/
def PredeterminedLenPrimitive.value_octets_count : PredeterminedLenPrimitive → Nat
  | .SignedInteger .Int8 => 1
  | .SignedInteger .Int16 => 2
  | .SignedInteger .Int32 => 4
  | .SignedInteger .Int64 => 8
  | .UnsignedInteger .UInt8 => 1
  | .UnsignedInteger .UInt16 => 2
  | .UnsignedInteger .UInt32 => 4
  | .UnsignedInteger .UInt64 => 8
  | .Boolean _ => 0
  | .FloatingPointNumber .FloatingPointNumber32 => 4
  | .FloatingPointNumber .FloatingPointNumber64 => 8
  | .Null => 0

/-- `types.rs` `TLVFieldSize` (length-field width selector). -/
inductive TLVFieldSize where
  | OneOctet
  | TwoOctets
  | FourOctets
  | EightOctets
deriving DecidableEq, Repr

/-- `types.rs` `TLVFieldSize::len_octets_count` (called `.len()` at the
`reader.rs` use site). -/
def TLVFieldSize.len_octets_count : TLVFieldSize → Nat
  | .OneOctet => 1
  | .TwoOctets => 2
  | .FourOctets => 4
  | .EightOctets => 8

/-- `types.rs` `ByteStrLen::length_field_size`. -/
def ByteStrLen.length_field_size : ByteStrLen → TLVFieldSize
  | .OneOctet => .OneOctet
  | .TwoOctets => .TwoOctets
  | .FourOctets => .FourOctets
  | .EightOctets => .EightOctets

/-- `types.rs` `UTF8StrLen::length_field_size`. -/
def UTF8StrLen.length_field_size : UTF8StrLen → TLVFieldSize
  | .OneOctet => .OneOctet
  | .TwoOctets => .TwoOctets
  | .FourOctets => .FourOctets
  | .EightOctets => .EightOctets

/-- `types.rs` `SpecifiedLenPrimitive::length_field_size`. -/
def SpecifiedLenPrimitive.length_field_size : SpecifiedLenPrimitive → TLVFieldSize
  | .UTF8String s => s.length_field_size
  | .ByteString s => s.length_field_size

/-! ## UTF-8 validity (std `from_utf8`, used by `read_char_str`) -/

/-- Byte-level UTF-8 validity (RFC 3629), the acceptance condition of Rust's
`std::str::from_utf8` used by `TLVReader::read_char_str`. -/
def validUtf8 : List Nat → Bool
  | [] => true
  | b :: rest =>
    if b ≤ 0x7F then validUtf8 rest
    else if 0xC2 ≤ b && b ≤ 0xDF then
      match rest with
      | c1 :: r => (0x80 ≤ c1 && c1 ≤ 0xBF) && validUtf8 r
      | [] => false
    else if b = 0xE0 then
      match rest with
      | c1 :: c2 :: r =>
        (0xA0 ≤ c1 && c1 ≤ 0xBF) && (0x80 ≤ c2 && c2 ≤ 0xBF) && validUtf8 r
      | _ => false
    else if (0xE1 ≤ b && b ≤ 0xEC) || b = 0xEE || b = 0xEF then
      match rest with
      | c1 :: c2 :: r =>
        (0x80 ≤ c1 && c1 ≤ 0xBF) && (0x80 ≤ c2 && c2 ≤ 0xBF) && validUtf8 r
      | _ => false
    else if b = 0xED then
      match rest with
      | c1 :: c2 :: r =>
        (0x80 ≤ c1 && c1 ≤ 0x9F) && (0x80 ≤ c2 && c2 ≤ 0xBF) && validUtf8 r
      | _ => false
    else if b = 0xF0 then
      match rest with
      | c1 :: c2 :: c3 :: r =>
        (0x90 ≤ c1 && c1 ≤ 0xBF) && (0x80 ≤ c2 && c2 ≤ 0xBF) &&
          (0x80 ≤ c3 && c3 ≤ 0xBF) && validUtf8 r
      | _ => false
    else if 0xF1 ≤ b && b ≤ 0xF3 then
      match rest with
      | c1 :: c2 :: c3 :: r =>
        (0x80 ≤ c1 && c1 ≤ 0xBF) && (0x80 ≤ c2 && c2 ≤ 0xBF) &&
          (0x80 ≤ c3 && c3 ≤ 0xBF) && validUtf8 r
      | _ => false
    else if b = 0xF4 then
      match rest with
      | c1 :: c2 :: c3 :: r =>
        (0x80 ≤ c1 && c1 ≤ 0x8F) && (0x80 ≤ c2 && c2 ≤ 0xBF) &&
          (0x80 ≤ c3 && c3 ≤ 0xBF) && validUtf8 r
      | _ => false
    else false

/-! ## Reader (src/reader.rs) -/

/-- `reader.rs` `TLVReader`: an owned byte buffer plus a cursor offset. -/
structure TLVReader where
  payload : List Nat
  len_read : Nat
deriving DecidableEq, Repr

/-- `TLVReader::new`. -/
def TLVReader.new (payload : List Nat) : TLVReader :=
  { payload := payload, len_read := 0 }

/-- `TLVReader::current_element`: the buffer from `len_read + offset` on. -/
def TLVReader.current_element (r : TLVReader) (offset : Nat) : List Nat :=
  r.payload.drop (r.len_read + offset)

/-- `TLVReader::parse_control_byte`: split the byte at the cursor into its
top 3 bits (tag control) and bottom 5 bits (element type); nom's bit parser
fails (`ParseError`) on an empty input. -/
def TLVReader.parse_control_byte (r : TLVReader) :
    Except TLVError (List Nat × Nat × Nat) :=
  match r.current_element 0 with
  | [] => .error .ParseError
  | b :: rest => .ok (rest, b / 2 ^ 5, b % 2 ^ 5)

/-- `reader.rs` `TLVReader::parse_field_size`: bounds-check against the
field width, then read the little-endian length field. -/
def parse_field_size (field_size : TLVFieldSize) (bytes : List Nat) :
    Except TLVError (List Nat × Nat) :=
  if field_size.len_octets_count > bytes.length then .error .UnderRun
  else
    match field_size with
    | .OneOctet =>
      match parse_u8 bytes with
      | .error e => .error e
      | .ok (rest, v) => .ok (rest, v)
    | .TwoOctets =>
      match parse_u16 bytes with
      | .error e => .error e
      | .ok (rest, v) => .ok (rest, v)
    | .FourOctets =>
      match parse_u32 bytes with
      | .error e => .error e
      | .ok (rest, v) => .ok (rest, v)
    | .EightOctets =>
      match parse_u64 bytes with
      | .error e => .error e
      | .ok (rest, v) => .ok (rest, v)

/-- `reader.rs` `TLVReader::parse_primitive_len`: `(remaining bytes,
length-field octet count, value octet count)`. -/
def parse_primitive_len (primitive_length_type : PrimitiveLengthType)
    (remaining_bytes : List Nat) : Except TLVError (List Nat × Nat × Nat) :=
  match primitive_length_type with
  | .Predetermined p => .ok (remaining_bytes, 0, p.value_octets_count)
  | .Specified s =>
    let len_field_size := s.length_field_size
    match parse_field_size len_field_size remaining_bytes with
    | .error e => .error e
    | .ok (rest, value_octets_count) =>
      .ok (rest, len_field_size.len_octets_count, value_octets_count)

/-- `reader.rs` `TLVReader::tlv_type`: element-type byte to `TLVType`. -/
def tlv_type (element_type_byte : Nat) : Except TLVError TLVType :=
  match ElementType.tryFrom element_type_byte with
  | .error e => .error e
  | .ok et => TLVType.fromElementType et

/-- `reader.rs` `TLVReader::parse_control_byte_for_tag_and_type` (the peek
used by every accessor): control byte, then `parse_tag(tag_control << 5)`,
then the element type. -/
def TLVReader.parse_control_byte_for_tag_and_type (r : TLVReader) :
    Except TLVError (List Nat × TLVTag × TLVType) :=
  match r.parse_control_byte with
  | .error e => .error e
  | .ok (remaining_bytes, tag_control_byte, element_type_byte) =>
    match parse_tag (tag_control_byte * 2 ^ 5) remaining_bytes with
    | .error e => .error e
    | .ok (remaining_bytes, tag) =>
      match tlv_type element_type_byte with
      | .error e => .error e
      | .ok ty => .ok (remaining_bytes, tag, ty)

/-- Modelled from the spec: the container branch of `TLVReader::next` is
`todo!("Skip to the End of Container")` in `reader.rs`; §4.4 of the spec
mandates computing a container's value length by scanning forward with a
nesting-depth counter, incremented on Structure/Array/List type codes and
decremented on EndOfContainer, until it returns to zero.  The scan walks
whole elements (control byte, tag bytes, and for primitives the length field
and value bytes), returning the number of bytes consumed; `fuel` bounds the
loop by the buffer length. -/
def skip_elements (bytes : List Nat) (depth fuel : Nat) : Except TLVError Nat :=
  match depth with
  | 0 => .ok 0
  | d + 1 =>
    match fuel with
    | 0 => .error .UnderRun
    | f + 1 =>
      match bytes with
      | [] => .error .UnderRun
      | b :: rest =>
        match parse_tag (b / 2 ^ 5 * 2 ^ 5) rest with
        | .error e => .error e
        | .ok (rb, tag) =>
          if b % 2 ^ 5 = 0x18 then
            match skip_elements rb d f with
            | .error e => .error e
            | .ok n => .ok (1 + tag.octets_count + n)
          else if b % 2 ^ 5 = 0x15 ∨ b % 2 ^ 5 = 0x16 ∨ b % 2 ^ 5 = 0x17 then
            match skip_elements rb (d + 2) f with
            | .error e => .error e
            | .ok n => .ok (1 + tag.octets_count + n)
          else
            match tlv_type (b % 2 ^ 5) with
            | .error e => .error e
            | .ok (.Container _) => .error .InvalidType
            | .ok (.Primitive plt) =>
              match parse_primitive_len plt rb with
              | .error e => .error e
              | .ok (_, lo, vo) =>
                if lo + vo ≤ rb.length then
                  match skip_elements (rb.drop (lo + vo)) (d + 1) f with
                  | .error e => .error e
                  | .ok n => .ok (1 + tag.octets_count + lo + vo + n)
                else .error .UnderRun

/-- `reader.rs` `TLVReader::next`: total element length is the
length-and-value octet count plus the tag octet count plus 1 for the control
byte; `UnderRun` past the buffer, `EndOfTLV` exactly at its end, else
advance.  The container value length is the spec-modelled depth scan
(`skip_elements`), the primitive one is `parse_primitive_len`. -/
def TLVReader.next (r : TLVReader) : Except TLVError TLVReader :=
  match r.parse_control_byte_for_tag_and_type with
  | .error e => .error e
  | .ok (remaining_bytes, tag, ty) =>
    let lv : Except TLVError Nat :=
      match ty with
      | .Container _ => skip_elements remaining_bytes 1 (remaining_bytes.length + 1)
      | .Primitive plt =>
        match parse_primitive_len plt remaining_bytes with
        | .error e => .error e
        | .ok (_, lo, vo) => .ok (lo + vo)
    match lv with
    | .error e => .error e
    | .ok length_and_value_octets_count =>
      let element_len := length_and_value_octets_count + tag.octets_count + 1
      let next_element := r.len_read + element_len
      if next_element > r.payload.length then .error .UnderRun
      else if next_element = r.payload.length then .error .EndOfTLV
      else .ok { r with len_read := next_element }

/-- `TLVReader::read_tag`. -/
def TLVReader.read_tag (r : TLVReader) : Except TLVError TLVTag :=
  match r.parse_control_byte_for_tag_and_type with
  | .error e => .error e
  | .ok (_, tag, _) => .ok tag

/-- `TLVReader::read_u8` (`TLVType::try_from(TLVElementType::UInt8)?`
evaluates to the `UInt8` primitive type below). -/
def TLVReader.read_u8 (r : TLVReader) : Except TLVError Nat :=
  match r.parse_control_byte_for_tag_and_type with
  | .error e => .error e
  | .ok (remaining_bytes, _, ty) =>
    if ty = .Primitive (.Predetermined (.UnsignedInteger .UInt8)) then
      match parse_u8 remaining_bytes with
      | .error e => .error e
      | .ok (_, value) => .ok value
    else .error .InvalidType

/-- `TLVReader::read_u16`. -/
def TLVReader.read_u16 (r : TLVReader) : Except TLVError Nat :=
  match r.parse_control_byte_for_tag_and_type with
  | .error e => .error e
  | .ok (remaining_bytes, _, ty) =>
    if ty = .Primitive (.Predetermined (.UnsignedInteger .UInt16)) then
      match parse_u16 remaining_bytes with
      | .error e => .error e
      | .ok (_, value) => .ok value
    else .error .InvalidType

/-- `TLVReader::read_u32`. -/
def TLVReader.read_u32 (r : TLVReader) : Except TLVError Nat :=
  match r.parse_control_byte_for_tag_and_type with
  | .error e => .error e
  | .ok (remaining_bytes, _, ty) =>
    if ty = .Primitive (.Predetermined (.UnsignedInteger .UInt32)) then
      match parse_u32 remaining_bytes with
      | .error e => .error e
      | .ok (_, value) => .ok value
    else .error .InvalidType

/-- `TLVReader::read_u64`. -/
def TLVReader.read_u64 (r : TLVReader) : Except TLVError Nat :=
  match r.parse_control_byte_for_tag_and_type with
  | .error e => .error e
  | .ok (remaining_bytes, _, ty) =>
    if ty = .Primitive (.Predetermined (.UnsignedInteger .UInt64)) then
      match parse_u64 remaining_bytes with
      | .error e => .error e
      | .ok (_, value) => .ok value
    else .error .InvalidType

/-- `TLVReader::read_i8`. -/
def TLVReader.read_i8 (r : TLVReader) : Except TLVError Int :=
  match r.parse_control_byte_for_tag_and_type with
  | .error e => .error e
  | .ok (remaining_bytes, _, ty) =>
    if ty = .Primitive (.Predetermined (.SignedInteger .Int8)) then
      match parse_i8 remaining_bytes with
      | .error e => .error e
      | .ok (_, value) => .ok value
    else .error .InvalidType

/-- `TLVReader::read_i16`. -/
def TLVReader.read_i16 (r : TLVReader) : Except TLVError Int :=
  match r.parse_control_byte_for_tag_and_type with
  | .error e => .error e
  | .ok (remaining_bytes, _, ty) =>
    if ty = .Primitive (.Predetermined (.SignedInteger .Int16)) then
      match parse_i16 remaining_bytes with
      | .error e => .error e
      | .ok (_, value) => .ok value
    else .error .InvalidType

/-- `TLVReader::read_i32`. -/
def TLVReader.read_i32 (r : TLVReader) : Except TLVError Int :=
  match r.parse_control_byte_for_tag_and_type with
  | .error e => .error e
  | .ok (remaining_bytes, _, ty) =>
    if ty = .Primitive (.Predetermined (.SignedInteger .Int32)) then
      match parse_i32 remaining_bytes with
      | .error e => .error e
      | .ok (_, value) => .ok value
    else .error .InvalidType

/-- `TLVReader::read_i64`. -/
def TLVReader.read_i64 (r : TLVReader) : Except TLVError Int :=
  match r.parse_control_byte_for_tag_and_type with
  | .error e => .error e
  | .ok (remaining_bytes, _, ty) =>
    if ty = .Primitive (.Predetermined (.SignedInteger .Int64)) then
      match parse_i64 remaining_bytes with
      | .error e => .error e
      | .ok (_, value) => .ok value
    else .error .InvalidType

/-- `TLVReader::read_f32` (value as its 32-bit pattern). -/
def TLVReader.read_f32 (r : TLVReader) : Except TLVError Nat :=
  match r.parse_control_byte_for_tag_and_type with
  | .error e => .error e
  | .ok (remaining_bytes, _, ty) =>
    if ty = .Primitive (.Predetermined (.FloatingPointNumber .FloatingPointNumber32)) then
      match parse_f32bits remaining_bytes with
      | .error e => .error e
      | .ok (_, value) => .ok value
    else .error .InvalidType

/-- `TLVReader::read_f64` (value as its 64-bit pattern). -/
def TLVReader.read_f64 (r : TLVReader) : Except TLVError Nat :=
  match r.parse_control_byte_for_tag_and_type with
  | .error e => .error e
  | .ok (remaining_bytes, _, ty) =>
    if ty = .Primitive (.Predetermined (.FloatingPointNumber .FloatingPointNumber64)) then
      match parse_f64bits remaining_bytes with
      | .error e => .error e
      | .ok (_, value) => .ok value
    else .error .InvalidType

/-- `TLVReader::read_bool`: `BooleanTrue`/`BooleanFalse` carry the value in
the type code itself. -/
def TLVReader.read_bool (r : TLVReader) : Except TLVError Bool :=
  match r.parse_control_byte_for_tag_and_type with
  | .error e => .error e
  | .ok (_, _, ty) =>
    if ty = .Primitive (.Predetermined (.Boolean true)) then .ok true
    else if ty = .Primitive (.Predetermined (.Boolean false)) then .ok false
    else .error .InvalidType

/-- `TLVReader::read_null`. -/
def TLVReader.read_null (r : TLVReader) : Except TLVError Unit :=
  match r.parse_control_byte_for_tag_and_type with
  | .error e => .error e
  | .ok (_, _, ty) =>
    if ty = .Primitive (.Predetermined .Null) then .ok ()
    else .error .InvalidType

/-- `TLVReader::read_byte_str`. -/
def TLVReader.read_byte_str (r : TLVReader) : Except TLVError (List Nat) :=
  match r.parse_control_byte_for_tag_and_type with
  | .error e => .error e
  | .ok (remaining_bytes, _, ty) =>
    match ty with
    | .Primitive (.Specified (.ByteString s)) =>
      match parse_field_size s.length_field_size remaining_bytes with
      | .error e => .error e
      | .ok (remaining_bytes, value_len) =>
        if value_len > remaining_bytes.length then .error .UnderRun
        else .ok (remaining_bytes.take value_len)
    | _ => .error .InvalidType

/-- `TLVReader::read_char_str` (the returned `&str` modelled as its bytes;
`from_utf8` failure is `ParseError`). -/
def TLVReader.read_char_str (r : TLVReader) : Except TLVError (List Nat) :=
  match r.parse_control_byte_for_tag_and_type with
  | .error e => .error e
  | .ok (remaining_bytes, _, ty) =>
    match ty with
    | .Primitive (.Specified (.UTF8String s)) =>
      match parse_field_size s.length_field_size remaining_bytes with
      | .error e => .error e
      | .ok (remaining_bytes, value_len) =>
        if value_len > remaining_bytes.length then .error .UnderRun
        else
          let value := remaining_bytes.take value_len
          if validUtf8 value then .ok value else .error .ParseError
    | _ => .error .InvalidType

/-- Selector for the 14 typed accessors of the Reader. -/
inductive AccessorKind where
  | ku8
  | ku16
  | ku32
  | ku64
  | ki8
  | ki16
  | ki32
  | ki64
  | kf32
  | kf64
  | kbool
  | knull
  | kchar_str
  | kbyte_str
deriving DecidableEq, Repr

/-- The element-type codes an accessor accepts (a single code per numeric
width; both boolean codes for `read_bool`; the four length-field widths for
each string accessor). -/
def matching_codes : AccessorKind → List Nat
  | .ku8 => [0x04]
  | .ku16 => [0x05]
  | .ku32 => [0x06]
  | .ku64 => [0x07]
  | .ki8 => [0x00]
  | .ki16 => [0x01]
  | .ki32 => [0x02]
  | .ki64 => [0x03]
  | .kf32 => [0x0A]
  | .kf64 => [0x0B]
  | .kbool => [0x08, 0x09]
  | .knull => [0x14]
  | .kchar_str => [0x0C, 0x0D, 0x0E, 0x0F]
  | .kbyte_str => [0x10, 0x11, 0x12, 0x13]

/-- Run the selected typed accessor, discarding the value (success/error is
what type-guard claims are about). -/
def read_kind (r : TLVReader) : AccessorKind → Except TLVError Unit
  | .ku8 => r.read_u8.map fun _ => ()
  | .ku16 => r.read_u16.map fun _ => ()
  | .ku32 => r.read_u32.map fun _ => ()
  | .ku64 => r.read_u64.map fun _ => ()
  | .ki8 => r.read_i8.map fun _ => ()
  | .ki16 => r.read_i16.map fun _ => ()
  | .ki32 => r.read_i32.map fun _ => ()
  | .ki64 => r.read_i64.map fun _ => ()
  | .kf32 => r.read_f32.map fun _ => ()
  | .kf64 => r.read_f64.map fun _ => ()
  | .kbool => r.read_bool.map fun _ => ()
  | .knull => r.read_null.map fun _ => ()
  | .kchar_str => r.read_char_str.map fun _ => ()
  | .kbyte_str => r.read_byte_str.map fun _ => ()

/-! ## Writer (src/writer.rs) -/

/-- `writer.rs` `encode_primitive`:
`[control_byte][tag_bytes][len_bytes][val_bytes]`, where the control byte is
`tag_control | element_type`. -/
def encode_primitive (tag : TLVTag) (element_type : ElementType)
    (len_bytes val_bytes : List Nat) : List Nat :=
  ((TagControl.ofTag tag).val ||| element_type.code) ::
    (tag_bytes tag ++ len_bytes ++ val_bytes)

/-- `impl TLVEncode for u8`, `encode_tlv_with_tag`. -/
def encode_tlv_u8 (tag : TLVTag) (v : Nat) : List Nat :=
  encode_primitive tag .UInt8 [] (toLE 1 v)

/-- `impl TLVEncode for u16`. -/
def encode_tlv_u16 (tag : TLVTag) (v : Nat) : List Nat :=
  encode_primitive tag .UInt16 [] (toLE 2 v)

/-- `impl TLVEncode for u32`. -/
def encode_tlv_u32 (tag : TLVTag) (v : Nat) : List Nat :=
  encode_primitive tag .UInt32 [] (toLE 4 v)

/-- `impl TLVEncode for u64`. -/
def encode_tlv_u64 (tag : TLVTag) (v : Nat) : List Nat :=
  encode_primitive tag .UInt64 [] (toLE 8 v)

/-- Two's-complement little-endian bytes of a signed value
(`to_le_bytes` on `i8` … `i64`). -/
def toLEsigned (w : Nat) (v : Int) : List Nat :=
  toLE w (v % (2 ^ (8 * w) : Nat)).toNat

/-- `impl TLVEncode for i8`. -/
def encode_tlv_i8 (tag : TLVTag) (v : Int) : List Nat :=
  encode_primitive tag .Int8 [] (toLEsigned 1 v)

/-- `impl TLVEncode for i16`. -/
def encode_tlv_i16 (tag : TLVTag) (v : Int) : List Nat :=
  encode_primitive tag .Int16 [] (toLEsigned 2 v)

/-- `impl TLVEncode for i32`. -/
def encode_tlv_i32 (tag : TLVTag) (v : Int) : List Nat :=
  encode_primitive tag .Int32 [] (toLEsigned 4 v)

/-- `impl TLVEncode for i64`. -/
def encode_tlv_i64 (tag : TLVTag) (v : Int) : List Nat :=
  encode_primitive tag .Int64 [] (toLEsigned 8 v)

/-- `impl TLVEncode for f32` (value as its 32-bit pattern). -/
def encode_tlv_f32 (tag : TLVTag) (bits : Nat) : List Nat :=
  encode_primitive tag .FloatingPointNumber32 [] (toLE 4 bits)

/-- `impl TLVEncode for f64` (value as its 64-bit pattern). -/
def encode_tlv_f64 (tag : TLVTag) (bits : Nat) : List Nat :=
  encode_primitive tag .FloatingPointNumber64 [] (toLE 8 bits)

/-- `impl TLVEncode for bool`. -/
def encode_tlv_bool (tag : TLVTag) (v : Bool) : List Nat :=
  encode_primitive tag (if v then .BooleanTrue else .BooleanFalse) [] []

/-- `writer.rs` `encode_null_with_tag`. -/
def encode_null_with_tag (tag : TLVTag) : List Nat :=
  encode_primitive tag .Null [] []

/-- Length-field choice of `impl TLVEncode for String` (`writer.rs` lines
125-145; identical chain in `TLVPrimitive for String`, `types.rs`): the
element type and little-endian length bytes for a payload of `val_len`
bytes. -/
def str_len_info (val_len : Nat) : ElementType × List Nat :=
  if val_len ≤ 2 ^ 8 - 1 then (.UTF8String1ByteLength, toLE 1 val_len)
  else if val_len ≤ 2 ^ 16 - 1 then (.UTF8String2ByteLength, toLE 2 val_len)
  else if val_len ≤ 2 ^ 32 - 1 then (.UTF8String4ByteLength, toLE 4 val_len)
  else (.UTF8String8ByteLength, toLE 8 val_len)

/-- Length-field choice of `impl TLVEncode for Bytes` (`writer.rs` lines
159-179; identical chain in `TLVPrimitive for Vec<u8>`, `types.rs`). -/
def bytes_len_info (val_len : Nat) : ElementType × List Nat :=
  if val_len ≤ 2 ^ 8 - 1 then (.ByteString1ByteLength, toLE 1 val_len)
  else if val_len ≤ 2 ^ 16 - 1 then (.ByteString2ByteLength, toLE 2 val_len)
  else if val_len ≤ 2 ^ 32 - 1 then (.ByteString4ByteLength, toLE 4 val_len)
  else (.ByteString8ByteLength, toLE 8 val_len)

/-- `impl TLVEncode for String` (payload as its UTF-8 bytes). -/
def encode_tlv_str (tag : TLVTag) (val_bytes : List Nat) : List Nat :=
  let info := str_len_info val_bytes.length
  encode_primitive tag info.1 info.2 val_bytes

/-- `impl TLVEncode for Bytes`. -/
def encode_tlv_bytes (tag : TLVTag) (val_bytes : List Nat) : List Nat :=
  let info := bytes_len_info val_bytes.length
  encode_primitive tag info.1 info.2 val_bytes

/-! ## Primitive values and the writer/reader dispatch -/

/-- A primitive TLV value of one of the 14 supported kinds (floats by bit
pattern, strings by payload bytes). -/
inductive PrimValue where
  | vu8 (v : Nat)
  | vu16 (v : Nat)
  | vu32 (v : Nat)
  | vu64 (v : Nat)
  | vi8 (v : Int)
  | vi16 (v : Int)
  | vi32 (v : Int)
  | vi64 (v : Int)
  | vf32 (bits : Nat)
  | vf64 (bits : Nat)
  | vbool (v : Bool)
  | vnull
  | vchar_str (s : List Nat)
  | vbyte_str (s : List Nat)
deriving DecidableEq, Repr

/-- The value is representable in its Rust carrier type (`u8` … `u64`,
`i8` … `i64`, `f32`/`f64` bit patterns, `String`/`Bytes` with a `usize`
length and, for `String`, valid UTF-8 contents). -/
def primWF : PrimValue → Bool
  | .vu8 v => v < 2 ^ 8
  | .vu16 v => v < 2 ^ 16
  | .vu32 v => v < 2 ^ 32
  | .vu64 v => v < 2 ^ 64
  | .vi8 v => -2 ^ 7 ≤ v && v < 2 ^ 7
  | .vi16 v => -2 ^ 15 ≤ v && v < 2 ^ 15
  | .vi32 v => -2 ^ 31 ≤ v && v < 2 ^ 31
  | .vi64 v => -2 ^ 63 ≤ v && v < 2 ^ 63
  | .vf32 bits => bits < 2 ^ 32
  | .vf64 bits => bits < 2 ^ 64
  | .vbool _ => true
  | .vnull => true
  | .vchar_str s => s.length < 2 ^ 64 && allBytes s && validUtf8 s
  | .vbyte_str s => s.length < 2 ^ 64 && allBytes s

/-- Dispatch to the per-kind `TLVEncode::encode_tlv_with_tag` impl. -/
def encode_value_with_tag (tag : TLVTag) : PrimValue → List Nat
  | .vu8 v => encode_tlv_u8 tag v
  | .vu16 v => encode_tlv_u16 tag v
  | .vu32 v => encode_tlv_u32 tag v
  | .vu64 v => encode_tlv_u64 tag v
  | .vi8 v => encode_tlv_i8 tag v
  | .vi16 v => encode_tlv_i16 tag v
  | .vi32 v => encode_tlv_i32 tag v
  | .vi64 v => encode_tlv_i64 tag v
  | .vf32 bits => encode_tlv_f32 tag bits
  | .vf64 bits => encode_tlv_f64 tag bits
  | .vbool v => encode_tlv_bool tag v
  | .vnull => encode_null_with_tag tag
  | .vchar_str s => encode_tlv_str tag s
  | .vbyte_str s => encode_tlv_bytes tag s

/-- The `(element_type, len_bytes, val_bytes)` triple each `TLVEncode` impl
passes to `encode_primitive`. -/
def prim_parts : PrimValue → ElementType × List Nat × List Nat
  | .vu8 v => (.UInt8, [], toLE 1 v)
  | .vu16 v => (.UInt16, [], toLE 2 v)
  | .vu32 v => (.UInt32, [], toLE 4 v)
  | .vu64 v => (.UInt64, [], toLE 8 v)
  | .vi8 v => (.Int8, [], toLEsigned 1 v)
  | .vi16 v => (.Int16, [], toLEsigned 2 v)
  | .vi32 v => (.Int32, [], toLEsigned 4 v)
  | .vi64 v => (.Int64, [], toLEsigned 8 v)
  | .vf32 bits => (.FloatingPointNumber32, [], toLE 4 bits)
  | .vf64 bits => (.FloatingPointNumber64, [], toLE 8 bits)
  | .vbool v => ((if v then .BooleanTrue else .BooleanFalse), [], [])
  | .vnull => (.Null, [], [])
  | .vchar_str s => ((str_len_info s.length).1, (str_len_info s.length).2, s)
  | .vbyte_str s => ((bytes_len_info s.length).1, (bytes_len_info s.length).2, s)

/-- The matching typed accessor recovers exactly this value from `r`. -/
def reads_back (r : TLVReader) : PrimValue → Prop
  | .vu8 v => r.read_u8 = .ok v
  | .vu16 v => r.read_u16 = .ok v
  | .vu32 v => r.read_u32 = .ok v
  | .vu64 v => r.read_u64 = .ok v
  | .vi8 v => r.read_i8 = .ok v
  | .vi16 v => r.read_i16 = .ok v
  | .vi32 v => r.read_i32 = .ok v
  | .vi64 v => r.read_i64 = .ok v
  | .vf32 bits => r.read_f32 = .ok bits
  | .vf64 bits => r.read_f64 = .ok bits
  | .vbool v => r.read_bool = .ok v
  | .vnull => r.read_null = .ok ()
  | .vchar_str s => r.read_char_str = .ok s
  | .vbyte_str s => r.read_byte_str = .ok s

/-- The accessor matching each primitive kind. -/
def kind_of : PrimValue → AccessorKind
  | .vu8 _ => .ku8
  | .vu16 _ => .ku16
  | .vu32 _ => .ku32
  | .vu64 _ => .ku64
  | .vi8 _ => .ki8
  | .vi16 _ => .ki16
  | .vi32 _ => .ki32
  | .vi64 _ => .ki64
  | .vf32 _ => .kf32
  | .vf64 _ => .kf64
  | .vbool _ => .kbool
  | .vnull => .knull
  | .vchar_str _ => .kchar_str
  | .vbyte_str _ => .kbyte_str

/-! ## Elements with containers (spec §4.4/§4.5, for the container scan) -/

mutual

/-- A TLV element: a primitive, or a container of nested elements.  The
container form is modelled from the spec (§4.5: `open_container_with_tag`
appends control byte + tag, members follow, `close_container` appends a lone
EndOfContainer control byte 0x18). -/
inductive Element where
  | prim (tag : TLVTag) (v : PrimValue)
  | container (tag : TLVTag) (k : ContainerType) (ms : Elements)

/-- A list of TLV elements (container members). -/
inductive Elements where
  | nil
  | cons (e : Element) (es : Elements)

end

mutual

/-- Wire encoding of an element (primitives via the writer impls; the
container layout is modelled from the spec as noted on `Element`). -/
def encodeElement : Element → List Nat
  | .prim tag v => encode_value_with_tag tag v
  | .container tag k ms =>
    ((TagControl.ofTag tag).val ||| k.code) ::
      (tag_bytes tag ++ encodeElements ms ++ [0x18])

/-- Wire encoding of a member list: concatenation. -/
def encodeElements : Elements → List Nat
  | .nil => []
  | .cons e es => encodeElement e ++ encodeElements es

end

mutual

/-- Well-formedness of an element: tags and primitive values fit their
carrier types. -/
def elementWF : Element → Bool
  | .prim tag v => tagWF tag && primWF v
  | .container tag _ ms => tagWF tag && elementsWF ms

/-- Well-formedness of a member list. -/
def elementsWF : Elements → Bool
  | .nil => true
  | .cons e es => elementWF e && elementsWF es

end

mutual

/-- Number of scan steps `skip_elements` spends inside an element (one per
control byte encountered). -/
def stepsElement : Element → Nat
  | .prim _ _ => 1
  | .container _ _ ms => 2 + stepsElements ms

/-- Scan steps of a member list. -/
def stepsElements : Elements → Nat
  | .nil => 0
  | .cons e es => stepsElement e + stepsElements es

end

/-! ## Little-endian parse/encode lemmas -/

theorem toLE_length (w n : Nat) : (toLE w n).length = w := by
  induction w generalizing n with
  | zero => rfl
  | succ w ih => simp [toLE, ih]

theorem parse_u8_toLE (n : Nat) (h : n < 2 ^ 8) (rest : List Nat) :
    parse_u8 (toLE 1 n ++ rest) = .ok (rest, n) := by
  simp [toLE, parse_u8]
  omega

theorem parse_u16_toLE (n : Nat) (h : n < 2 ^ 16) (rest : List Nat) :
    parse_u16 (toLE 2 n ++ rest) = .ok (rest, n) := by
  simp [toLE, parse_u16]
  omega

theorem parse_u32_toLE (n : Nat) (h : n < 2 ^ 32) (rest : List Nat) :
    parse_u32 (toLE 4 n ++ rest) = .ok (rest, n) := by
  simp [toLE, parse_u32]
  omega

theorem parse_u64_toLE (n : Nat) (h : n < 2 ^ 64) (rest : List Nat) :
    parse_u64 (toLE 8 n ++ rest) = .ok (rest, n) := by
  simp [toLE, parse_u64]
  omega

theorem parse_i8_toLEsigned (v : Int) (h1 : -2 ^ 7 ≤ v) (h2 : v < 2 ^ 7)
    (rest : List Nat) : parse_i8 (toLEsigned 1 v ++ rest) = .ok (rest, v) := by
  have he : toLEsigned 1 v = toLE 1 (v % 256).toNat := rfl
  have hb : (v % 256).toNat < 2 ^ 8 := by omega
  have ha : asSigned 1 (v % 256).toNat
      = if (v % 256).toNat < 128 then ((v % 256).toNat : Int)
        else ((v % 256).toNat : Int) - 256 := rfl
  have hv : asSigned 1 (v % 256).toNat = v := by
    rw [ha]; split <;> omega
  simp [parse_i8, he, parse_u8_toLE _ hb, hv]

theorem parse_i16_toLEsigned (v : Int) (h1 : -2 ^ 15 ≤ v) (h2 : v < 2 ^ 15)
    (rest : List Nat) : parse_i16 (toLEsigned 2 v ++ rest) = .ok (rest, v) := by
  have he : toLEsigned 2 v = toLE 2 (v % 65536).toNat := rfl
  have hb : (v % 65536).toNat < 2 ^ 16 := by omega
  have ha : asSigned 2 (v % 65536).toNat
      = if (v % 65536).toNat < 32768 then ((v % 65536).toNat : Int)
        else ((v % 65536).toNat : Int) - 65536 := rfl
  have hv : asSigned 2 (v % 65536).toNat = v := by
    rw [ha]; split <;> omega
  simp [parse_i16, he, parse_u16_toLE _ hb, hv]

theorem parse_i32_toLEsigned (v : Int) (h1 : -2 ^ 31 ≤ v) (h2 : v < 2 ^ 31)
    (rest : List Nat) : parse_i32 (toLEsigned 4 v ++ rest) = .ok (rest, v) := by
  have he : toLEsigned 4 v = toLE 4 (v % 4294967296).toNat := rfl
  have hb : (v % 4294967296).toNat < 2 ^ 32 := by omega
  have ha : asSigned 4 (v % 4294967296).toNat
      = if (v % 4294967296).toNat < 2147483648 then ((v % 4294967296).toNat : Int)
        else ((v % 4294967296).toNat : Int) - 4294967296 := rfl
  have hv : asSigned 4 (v % 4294967296).toNat = v := by
    rw [ha]; split <;> omega
  simp [parse_i32, he, parse_u32_toLE _ hb, hv]

theorem parse_i64_toLEsigned (v : Int) (h1 : -2 ^ 63 ≤ v) (h2 : v < 2 ^ 63)
    (rest : List Nat) : parse_i64 (toLEsigned 8 v ++ rest) = .ok (rest, v) := by
  have he : toLEsigned 8 v = toLE 8 (v % 18446744073709551616).toNat := rfl
  have hb : (v % 18446744073709551616).toNat < 2 ^ 64 := by omega
  have ha : asSigned 8 (v % 18446744073709551616).toNat
      = if (v % 18446744073709551616).toNat < 9223372036854775808 then
          ((v % 18446744073709551616).toNat : Int)
        else ((v % 18446744073709551616).toNat : Int) - 18446744073709551616 := rfl
  have hv : asSigned 8 (v % 18446744073709551616).toNat = v := by
    rw [ha]; split <;> omega
  simp [parse_i64, he, parse_u64_toLE _ hb, hv]

/-! ## Tag round-trip and control-byte decomposition -/

theorem parse_tag_encode (tag : TLVTag) (h : tagWF tag = true) (rest : List Nat) :
    parse_tag (TagControl.ofTag tag).val (tag_bytes tag ++ rest) = .ok (rest, tag) := by
  cases tag with
  | Anonymous => rfl
  | ContextSpecific n =>
    simp only [tagWF, decide_eq_true_eq] at h
    simp [parse_tag, TagControl.ofTag, TagControl.val, TagControl.tryFrom, tag_bytes,
      parse_u8_toLE n h]
  | CommonProfile p =>
    cases p with
    | TwoOctets n =>
      simp only [tagWF, decide_eq_true_eq] at h
      simp [parse_tag, TagControl.ofTag, TagControl.val, TagControl.tryFrom, tag_bytes,
        parse_u16_toLE n h]
    | FourOctets n =>
      simp only [tagWF, decide_eq_true_eq] at h
      simp [parse_tag, TagControl.ofTag, TagControl.val, TagControl.tryFrom, tag_bytes,
        parse_u32_toLE n h]
  | ImplicitProfile p =>
    cases p with
    | TwoOctets n =>
      simp only [tagWF, decide_eq_true_eq] at h
      simp [parse_tag, TagControl.ofTag, TagControl.val, TagControl.tryFrom, tag_bytes,
        parse_u16_toLE n h]
    | FourOctets n =>
      simp only [tagWF, decide_eq_true_eq] at h
      simp [parse_tag, TagControl.ofTag, TagControl.val, TagControl.tryFrom, tag_bytes,
        parse_u32_toLE n h]
  | FullyQualifiedProfile p =>
    cases p with
    | SixOctets v p n =>
      simp only [tagWF, Bool.and_eq_true, decide_eq_true_eq] at h
      obtain ⟨⟨hv, hp⟩, hn⟩ := h
      simp [parse_tag, TagControl.ofTag, TagControl.val, TagControl.tryFrom, tag_bytes,
        List.append_assoc, parse_u16_toLE v hv, parse_u16_toLE p hp, parse_u16_toLE n hn]
    | EightOctets v p n =>
      simp only [tagWF, Bool.and_eq_true, decide_eq_true_eq] at h
      obtain ⟨⟨hv, hp⟩, hn⟩ := h
      simp [parse_tag, TagControl.ofTag, TagControl.val, TagControl.tryFrom, tag_bytes,
        List.append_assoc, parse_u16_toLE v hv, parse_u16_toLE p hp, parse_u32_toLE n hn]

theorem ctrl_decomp (tc : TagControl) :
    ∀ t, t < 2 ^ 5 → (tc.val ||| t) / 2 ^ 5 * 2 ^ 5 = tc.val ∧ (tc.val ||| t) % 2 ^ 5 = t := by
  cases tc <;> decide

theorem code_lt (et : ElementType) : et.code < 2 ^ 5 := by
  cases et <;> decide

theorem tryFrom_code (et : ElementType) : ElementType.tryFrom et.code = .ok et := by
  cases et <;> rfl

theorem tlv_type_code (et : ElementType) :
    tlv_type et.code = TLVType.fromElementType et := by
  rw [tlv_type, tryFrom_code]

theorem parse_u8_toLE_nil (n : Nat) (h : n < 2 ^ 8) :
    parse_u8 (toLE 1 n) = .ok ([], n) := by
  simpa using parse_u8_toLE n h []

theorem parse_u16_toLE_nil (n : Nat) (h : n < 2 ^ 16) :
    parse_u16 (toLE 2 n) = .ok ([], n) := by
  simpa using parse_u16_toLE n h []

theorem parse_u32_toLE_nil (n : Nat) (h : n < 2 ^ 32) :
    parse_u32 (toLE 4 n) = .ok ([], n) := by
  simpa using parse_u32_toLE n h []

theorem parse_u64_toLE_nil (n : Nat) (h : n < 2 ^ 64) :
    parse_u64 (toLE 8 n) = .ok ([], n) := by
  simpa using parse_u64_toLE n h []

theorem parse_i8_toLEsigned_nil (v : Int) (h1 : -2 ^ 7 <= v) (h2 : v < 2 ^ 7) :
    parse_i8 (toLEsigned 1 v) = .ok ([], v) := by
  simpa using parse_i8_toLEsigned v h1 h2 []

theorem parse_i16_toLEsigned_nil (v : Int) (h1 : -2 ^ 15 <= v) (h2 : v < 2 ^ 15) :
    parse_i16 (toLEsigned 2 v) = .ok ([], v) := by
  simpa using parse_i16_toLEsigned v h1 h2 []

theorem parse_i32_toLEsigned_nil (v : Int) (h1 : -2 ^ 31 <= v) (h2 : v < 2 ^ 31) :
    parse_i32 (toLEsigned 4 v) = .ok ([], v) := by
  simpa using parse_i32_toLEsigned v h1 h2 []

theorem parse_i64_toLEsigned_nil (v : Int) (h1 : -2 ^ 63 <= v) (h2 : v < 2 ^ 63) :
    parse_i64 (toLEsigned 8 v) = .ok ([], v) := by
  simpa using parse_i64_toLEsigned v h1 h2 []

theorem pcbtt_encode (tag : TLVTag) (et : ElementType) (len_bytes val_bytes : List Nat)
    (h : tagWF tag = true) :
    (TLVReader.new (encode_primitive tag et len_bytes val_bytes)).parse_control_byte_for_tag_and_type
      = match TLVType.fromElementType et with
        | .error e => .error e
        | .ok ty => .ok (len_bytes ++ val_bytes, tag, ty) := by
  obtain ⟨hdiv, hmod⟩ := ctrl_decomp (TagControl.ofTag tag) et.code (code_lt et)
  simp only [TLVReader.parse_control_byte_for_tag_and_type, TLVReader.parse_control_byte,
    TLVReader.new, TLVReader.current_element, encode_primitive, List.drop_zero, Nat.add_zero,
    List.append_assoc, hdiv, hmod, parse_tag_encode tag h, tlv_type_code]

theorem read_tag_encode (tag : TLVTag) (et : ElementType) (lb vb : List Nat) (ty : TLVType)
    (h : tagWF tag = true) (hok : TLVType.fromElementType et = .ok ty) :
    (TLVReader.new (encode_primitive tag et lb vb)).read_tag = .ok tag := by
  simp [TLVReader.read_tag, pcbtt_encode tag et lb vb h, hok]

theorem parse_field_size_1 (L : Nat) (hL : L < 2 ^ 8) (rest : List Nat) :
    parse_field_size .OneOctet (toLE 1 L ++ rest) = .ok (rest, L) := by
  rw [parse_field_size, if_neg (by
    simp only [TLVFieldSize.len_octets_count, List.length_append, toLE_length]
    omega)]
  simp [parse_u8_toLE L hL]

theorem parse_field_size_2 (L : Nat) (hL : L < 2 ^ 16) (rest : List Nat) :
    parse_field_size .TwoOctets (toLE 2 L ++ rest) = .ok (rest, L) := by
  rw [parse_field_size, if_neg (by
    simp only [TLVFieldSize.len_octets_count, List.length_append, toLE_length]
    omega)]
  simp [parse_u16_toLE L hL]

theorem parse_field_size_4 (L : Nat) (hL : L < 2 ^ 32) (rest : List Nat) :
    parse_field_size .FourOctets (toLE 4 L ++ rest) = .ok (rest, L) := by
  rw [parse_field_size, if_neg (by
    simp only [TLVFieldSize.len_octets_count, List.length_append, toLE_length]
    omega)]
  simp [parse_u32_toLE L hL]

theorem parse_field_size_8 (L : Nat) (hL : L < 2 ^ 64) (rest : List Nat) :
    parse_field_size .EightOctets (toLE 8 L ++ rest) = .ok (rest, L) := by
  rw [parse_field_size, if_neg (by
    simp only [TLVFieldSize.len_octets_count, List.length_append, toLE_length]
    omega)]
  simp [parse_u64_toLE L hL]

/-- C1: for every primitive value of every supported kind (u8, u16, u32,
u64, i8, i16, i32, i64, f32, f64, bool, null, UTF-8 string, byte string)
and every tag of the five tag variants, encoding the value with that tag via
the Writer and then decoding the resulting buffer with a fresh Reader
recovers exactly the same tag from `read_tag` and exactly the same value
from the matching typed accessor. -/
theorem c1_write_read_roundtrip (tag : TLVTag) (v : PrimValue)
    (htag : tagWF tag = true) (hv : primWF v = true) :
    (TLVReader.new (encode_value_with_tag tag v)).read_tag = .ok tag ∧
    reads_back (TLVReader.new (encode_value_with_tag tag v)) v := by
  cases v with
  | vu8 n =>
    simp only [primWF, decide_eq_true_eq] at hv
    refine ⟨read_tag_encode tag .UInt8 [] (toLE 1 n) _ htag rfl, ?_⟩
    show (TLVReader.new (encode_tlv_u8 tag n)).read_u8 = .ok n
    simp [TLVReader.read_u8, encode_tlv_u8, pcbtt_encode tag .UInt8 [] _ htag,
      TLVType.fromElementType, parse_u8_toLE_nil n hv]
  | vu16 n =>
    simp only [primWF, decide_eq_true_eq] at hv
    refine ⟨read_tag_encode tag .UInt16 [] (toLE 2 n) _ htag rfl, ?_⟩
    show (TLVReader.new (encode_tlv_u16 tag n)).read_u16 = .ok n
    simp [TLVReader.read_u16, encode_tlv_u16, pcbtt_encode tag .UInt16 [] _ htag,
      TLVType.fromElementType, parse_u16_toLE_nil n hv]
  | vu32 n =>
    simp only [primWF, decide_eq_true_eq] at hv
    refine ⟨read_tag_encode tag .UInt32 [] (toLE 4 n) _ htag rfl, ?_⟩
    show (TLVReader.new (encode_tlv_u32 tag n)).read_u32 = .ok n
    simp [TLVReader.read_u32, encode_tlv_u32, pcbtt_encode tag .UInt32 [] _ htag,
      TLVType.fromElementType, parse_u32_toLE_nil n hv]
  | vu64 n =>
    simp only [primWF, decide_eq_true_eq] at hv
    refine ⟨read_tag_encode tag .UInt64 [] (toLE 8 n) _ htag rfl, ?_⟩
    show (TLVReader.new (encode_tlv_u64 tag n)).read_u64 = .ok n
    simp [TLVReader.read_u64, encode_tlv_u64, pcbtt_encode tag .UInt64 [] _ htag,
      TLVType.fromElementType, parse_u64_toLE_nil n hv]
  | vi8 n =>
    simp only [primWF, Bool.and_eq_true, decide_eq_true_eq] at hv
    refine ⟨read_tag_encode tag .Int8 [] (toLEsigned 1 n) _ htag rfl, ?_⟩
    show (TLVReader.new (encode_tlv_i8 tag n)).read_i8 = .ok n
    simp [TLVReader.read_i8, encode_tlv_i8, pcbtt_encode tag .Int8 [] _ htag,
      TLVType.fromElementType, parse_i8_toLEsigned_nil n hv.1 hv.2]
  | vi16 n =>
    simp only [primWF, Bool.and_eq_true, decide_eq_true_eq] at hv
    refine ⟨read_tag_encode tag .Int16 [] (toLEsigned 2 n) _ htag rfl, ?_⟩
    show (TLVReader.new (encode_tlv_i16 tag n)).read_i16 = .ok n
    simp [TLVReader.read_i16, encode_tlv_i16, pcbtt_encode tag .Int16 [] _ htag,
      TLVType.fromElementType, parse_i16_toLEsigned_nil n hv.1 hv.2]
  | vi32 n =>
    simp only [primWF, Bool.and_eq_true, decide_eq_true_eq] at hv
    refine ⟨read_tag_encode tag .Int32 [] (toLEsigned 4 n) _ htag rfl, ?_⟩
    show (TLVReader.new (encode_tlv_i32 tag n)).read_i32 = .ok n
    simp [TLVReader.read_i32, encode_tlv_i32, pcbtt_encode tag .Int32 [] _ htag,
      TLVType.fromElementType, parse_i32_toLEsigned_nil n hv.1 hv.2]
  | vi64 n =>
    simp only [primWF, Bool.and_eq_true, decide_eq_true_eq] at hv
    refine ⟨read_tag_encode tag .Int64 [] (toLEsigned 8 n) _ htag rfl, ?_⟩
    show (TLVReader.new (encode_tlv_i64 tag n)).read_i64 = .ok n
    simp [TLVReader.read_i64, encode_tlv_i64, pcbtt_encode tag .Int64 [] _ htag,
      TLVType.fromElementType, parse_i64_toLEsigned_nil n hv.1 hv.2]
  | vf32 bits =>
    simp only [primWF, decide_eq_true_eq] at hv
    refine ⟨read_tag_encode tag .FloatingPointNumber32 [] (toLE 4 bits) _ htag rfl, ?_⟩
    show (TLVReader.new (encode_tlv_f32 tag bits)).read_f32 = .ok bits
    simp [TLVReader.read_f32, encode_tlv_f32, pcbtt_encode tag .FloatingPointNumber32 [] _ htag,
      TLVType.fromElementType, parse_f32bits, parse_u32_toLE_nil bits hv]
  | vf64 bits =>
    simp only [primWF, decide_eq_true_eq] at hv
    refine ⟨read_tag_encode tag .FloatingPointNumber64 [] (toLE 8 bits) _ htag rfl, ?_⟩
    show (TLVReader.new (encode_tlv_f64 tag bits)).read_f64 = .ok bits
    simp [TLVReader.read_f64, encode_tlv_f64, pcbtt_encode tag .FloatingPointNumber64 [] _ htag,
      TLVType.fromElementType, parse_f64bits, parse_u64_toLE_nil bits hv]
  | vbool b =>
    cases b with
    | false =>
      refine ⟨read_tag_encode tag .BooleanFalse [] [] _ htag rfl, ?_⟩
      show (TLVReader.new (encode_tlv_bool tag false)).read_bool = .ok false
      simp [TLVReader.read_bool, encode_tlv_bool, pcbtt_encode tag .BooleanFalse [] [] htag,
        TLVType.fromElementType]
    | true =>
      refine ⟨read_tag_encode tag .BooleanTrue [] [] _ htag rfl, ?_⟩
      show (TLVReader.new (encode_tlv_bool tag true)).read_bool = .ok true
      simp [TLVReader.read_bool, encode_tlv_bool, pcbtt_encode tag .BooleanTrue [] [] htag,
        TLVType.fromElementType]
  | vnull =>
    refine ⟨read_tag_encode tag .Null [] [] _ htag rfl, ?_⟩
    show (TLVReader.new (encode_null_with_tag tag)).read_null = .ok ()
    simp [TLVReader.read_null, encode_null_with_tag, pcbtt_encode tag .Null [] [] htag,
      TLVType.fromElementType]
  | vchar_str s =>
    simp only [primWF, Bool.and_eq_true, decide_eq_true_eq] at hv
    obtain ⟨⟨hlen, _hb⟩, hutf⟩ := hv
    by_cases h1 : s.length ≤ 255
    · have henc : encode_value_with_tag tag (.vchar_str s)
          = encode_primitive tag .UTF8String1ByteLength (toLE 1 s.length) s := by
        simp [encode_value_with_tag, encode_tlv_str, str_len_info, h1]
      rw [henc]
      refine ⟨read_tag_encode tag _ _ _ _ htag rfl, ?_⟩
      show (TLVReader.new (encode_primitive tag .UTF8String1ByteLength
        (toLE 1 s.length) s)).read_char_str = .ok s
      simp [TLVReader.read_char_str, pcbtt_encode tag .UTF8String1ByteLength _ _ htag,
        TLVType.fromElementType, UTF8StrLen.length_field_size,
        parse_field_size_1 s.length (by omega) s, hutf]
    · by_cases h2 : s.length ≤ 65535
      · have henc : encode_value_with_tag tag (.vchar_str s)
            = encode_primitive tag .UTF8String2ByteLength (toLE 2 s.length) s := by
          simp [encode_value_with_tag, encode_tlv_str, str_len_info, h1, h2]
        rw [henc]
        refine ⟨read_tag_encode tag _ _ _ _ htag rfl, ?_⟩
        show (TLVReader.new (encode_primitive tag .UTF8String2ByteLength
          (toLE 2 s.length) s)).read_char_str = .ok s
        simp [TLVReader.read_char_str, pcbtt_encode tag .UTF8String2ByteLength _ _ htag,
          TLVType.fromElementType, UTF8StrLen.length_field_size,
          parse_field_size_2 s.length (by omega) s, hutf]
      · by_cases h3 : s.length ≤ 4294967295
        · have henc : encode_value_with_tag tag (.vchar_str s)
              = encode_primitive tag .UTF8String4ByteLength (toLE 4 s.length) s := by
            simp [encode_value_with_tag, encode_tlv_str, str_len_info, h1, h2, h3]
          rw [henc]
          refine ⟨read_tag_encode tag _ _ _ _ htag rfl, ?_⟩
          show (TLVReader.new (encode_primitive tag .UTF8String4ByteLength
            (toLE 4 s.length) s)).read_char_str = .ok s
          simp [TLVReader.read_char_str, pcbtt_encode tag .UTF8String4ByteLength _ _ htag,
            TLVType.fromElementType, UTF8StrLen.length_field_size,
            parse_field_size_4 s.length (by omega) s, hutf]
        · have henc : encode_value_with_tag tag (.vchar_str s)
              = encode_primitive tag .UTF8String8ByteLength (toLE 8 s.length) s := by
            simp [encode_value_with_tag, encode_tlv_str, str_len_info, h1, h2, h3]
          rw [henc]
          refine ⟨read_tag_encode tag _ _ _ _ htag rfl, ?_⟩
          show (TLVReader.new (encode_primitive tag .UTF8String8ByteLength
            (toLE 8 s.length) s)).read_char_str = .ok s
          simp [TLVReader.read_char_str, pcbtt_encode tag .UTF8String8ByteLength _ _ htag,
            TLVType.fromElementType, UTF8StrLen.length_field_size,
            parse_field_size_8 s.length (by omega) s, hutf]
  | vbyte_str s =>
    simp only [primWF, Bool.and_eq_true, decide_eq_true_eq] at hv
    obtain ⟨hlen, _hb⟩ := hv
    by_cases h1 : s.length ≤ 255
    · have henc : encode_value_with_tag tag (.vbyte_str s)
          = encode_primitive tag .ByteString1ByteLength (toLE 1 s.length) s := by
        simp [encode_value_with_tag, encode_tlv_bytes, bytes_len_info, h1]
      rw [henc]
      refine ⟨read_tag_encode tag _ _ _ _ htag rfl, ?_⟩
      show (TLVReader.new (encode_primitive tag .ByteString1ByteLength
        (toLE 1 s.length) s)).read_byte_str = .ok s
      simp [TLVReader.read_byte_str, pcbtt_encode tag .ByteString1ByteLength _ _ htag,
        TLVType.fromElementType, ByteStrLen.length_field_size,
        parse_field_size_1 s.length (by omega) s]
    · by_cases h2 : s.length ≤ 65535
      · have henc : encode_value_with_tag tag (.vbyte_str s)
            = encode_primitive tag .ByteString2ByteLength (toLE 2 s.length) s := by
          simp [encode_value_with_tag, encode_tlv_bytes, bytes_len_info, h1, h2]
        rw [henc]
        refine ⟨read_tag_encode tag _ _ _ _ htag rfl, ?_⟩
        show (TLVReader.new (encode_primitive tag .ByteString2ByteLength
          (toLE 2 s.length) s)).read_byte_str = .ok s
        simp [TLVReader.read_byte_str, pcbtt_encode tag .ByteString2ByteLength _ _ htag,
          TLVType.fromElementType, ByteStrLen.length_field_size,
          parse_field_size_2 s.length (by omega) s]
      · by_cases h3 : s.length ≤ 4294967295
        · have henc : encode_value_with_tag tag (.vbyte_str s)
              = encode_primitive tag .ByteString4ByteLength (toLE 4 s.length) s := by
            simp [encode_value_with_tag, encode_tlv_bytes, bytes_len_info, h1, h2, h3]
          rw [henc]
          refine ⟨read_tag_encode tag _ _ _ _ htag rfl, ?_⟩
          show (TLVReader.new (encode_primitive tag .ByteString4ByteLength
            (toLE 4 s.length) s)).read_byte_str = .ok s
          simp [TLVReader.read_byte_str, pcbtt_encode tag .ByteString4ByteLength _ _ htag,
            TLVType.fromElementType, ByteStrLen.length_field_size,
            parse_field_size_4 s.length (by omega) s]
        · have henc : encode_value_with_tag tag (.vbyte_str s)
              = encode_primitive tag .ByteString8ByteLength (toLE 8 s.length) s := by
            simp [encode_value_with_tag, encode_tlv_bytes, bytes_len_info, h1, h2, h3]
          rw [henc]
          refine ⟨read_tag_encode tag _ _ _ _ htag rfl, ?_⟩
          show (TLVReader.new (encode_primitive tag .ByteString8ByteLength
            (toLE 8 s.length) s)).read_byte_str = .ok s
          simp [TLVReader.read_byte_str, pcbtt_encode tag .ByteString8ByteLength _ _ htag,
            TLVType.fromElementType, ByteStrLen.length_field_size,
            parse_field_size_8 s.length (by omega) s]

/-- Witness for C1 at tag `ContextSpecific 7` and value `u16 65535`. -/
theorem c1_write_read_roundtrip_witness :
    tagWF (.ContextSpecific 7) = true ∧ primWF (.vu16 65535) = true ∧
    ((TLVReader.new (encode_value_with_tag (.ContextSpecific 7) (.vu16 65535))).read_tag
        = .ok (.ContextSpecific 7) ∧
      reads_back (TLVReader.new (encode_value_with_tag (.ContextSpecific 7) (.vu16 65535)))
        (.vu16 65535)) :=
  ⟨by decide, by decide, c1_write_read_roundtrip _ _ (by decide) (by decide)⟩

/-- C3 counterexample: `[0x04, 0xFF]` is the Writer's encoding of u8 255
with an Anonymous tag; truncating its last byte and decoding with the
matching typed accessor `read_u8` fails with `ParseError`, not `UnderRun`
(the fixed-width value parse is a nom combinator whose exhaustion error is
mapped to `ParseError`). -/
theorem c3_truncation_counterexample :
    encode_value_with_tag .Anonymous (.vu8 255) = [0x04, 0xFF] ∧
    (TLVReader.new ([0x04, 0xFF].dropLast)).read_u8 = .error .ParseError ∧
    TLVError.ParseError ≠ TLVError.UnderRun := by
  decide

/-- C4: for a primitive element at the cursor, `next()` computes the total
wire length as the tag octet count, plus 1 for the control byte, plus the
length-field octets, plus the value octets; it fails `UnderRun` exactly when
the cursor plus that length exceeds the buffer length, fails `EndOfTLV`
exactly when it equals it, and otherwise advances the cursor by exactly that
length. -/
theorem c4_next_primitive (r : TLVReader) (rb rb2 : List Nat) (tag : TLVTag)
    (plt : PrimitiveLengthType) (lo vo : Nat)
    (h1 : r.parse_control_byte_for_tag_and_type = .ok (rb, tag, .Primitive plt))
    (h2 : parse_primitive_len plt rb = .ok (rb2, lo, vo)) :
    (r.len_read + (tag.octets_count + 1 + lo + vo) > r.payload.length →
      r.next = .error .UnderRun) ∧
    (r.len_read + (tag.octets_count + 1 + lo + vo) = r.payload.length →
      r.next = .error .EndOfTLV) ∧
    (r.len_read + (tag.octets_count + 1 + lo + vo) < r.payload.length →
      r.next = .ok { payload := r.payload,
                     len_read := r.len_read + (tag.octets_count + 1 + lo + vo) }) := by
  have hn : r.next
      = (if r.len_read + (lo + vo + tag.octets_count + 1) > r.payload.length
          then .error .UnderRun
          else if r.len_read + (lo + vo + tag.octets_count + 1) = r.payload.length
          then .error .EndOfTLV
          else .ok { r with len_read := r.len_read + (lo + vo + tag.octets_count + 1) }) := by
    rw [TLVReader.next, h1]
    simp [h2]
  have e : r.len_read + (lo + vo + tag.octets_count + 1)
      = r.len_read + (tag.octets_count + 1 + lo + vo) := by omega
  rw [e] at hn
  refine ⟨?_, ?_, ?_⟩ <;> intro h <;> rw [hn]
  · rw [if_pos h]
  · rw [if_neg (by omega), if_pos h]
  · rw [if_neg (by omega), if_neg (by omega)]

/-- Witness for C4: a u8 element followed by a null element; `next()`
advances the cursor by 2 = 0 (anonymous tag) + 1 (control byte) + 0 + 1. -/
theorem c4_next_primitive_witness :
    (TLVReader.new [0x04, 0xFF, 0x14]).next
      = .ok { payload := [0x04, 0xFF, 0x14], len_read := 2 } :=
  (c4_next_primitive (TLVReader.new [0x04, 0xFF, 0x14]) [0xFF, 0x14] [0xFF, 0x14]
    .Anonymous (.Predetermined (.UnsignedInteger .UInt8)) 0 1
    (by decide) (by decide)).2.2 (by decide)

/-- C6: for string payloads the Writer selects the smallest length-field
width among {1,2,4,8} whose maximum representable value is at least the
payload byte length (same chain for UTF-8 and byte strings); in particular
length 255 gets a 1-byte field and length 256 a 2-byte field. -/
theorem c6_minimal_length_field (n : Nat) (h : n < 2 ^ 64) :
    ((str_len_info n).2.length = 1 ∨ (str_len_info n).2.length = 2 ∨
      (str_len_info n).2.length = 4 ∨ (str_len_info n).2.length = 8) ∧
    n ≤ 2 ^ (8 * (str_len_info n).2.length) - 1 ∧
    (∀ w, (w = 1 ∨ w = 2 ∨ w = 4 ∨ w = 8) → w < (str_len_info n).2.length →
      2 ^ (8 * w) - 1 < n) ∧
    (bytes_len_info n).2.length = (str_len_info n).2.length ∧
    (str_len_info 255).2.length = 1 ∧ (str_len_info 256).2.length = 2 := by
  have p1 : (2 : Nat) ^ (8 * 1) = 256 := by norm_num
  have p2 : (2 : Nat) ^ (8 * 2) = 65536 := by norm_num
  have p4 : (2 : Nat) ^ (8 * 4) = 4294967296 := by norm_num
  have p8 : (2 : Nat) ^ (8 * 8) = 18446744073709551616 := by norm_num
  by_cases h1 : n ≤ 255
  · have hw : (str_len_info n).2.length = 1 := by
      simp [str_len_info, h1, toLE_length]
    have hwb : (bytes_len_info n).2.length = 1 := by
      simp [bytes_len_info, h1, toLE_length]
    rw [hw, hwb]
    refine ⟨Or.inl rfl, by omega, ?_, rfl, by decide, by decide⟩
    intro w hw hlt
    rcases hw with rfl | rfl | rfl | rfl <;> omega
  · by_cases h2 : n ≤ 65535
    · have hw : (str_len_info n).2.length = 2 := by
        simp [str_len_info, h1, h2, toLE_length]
      have hwb : (bytes_len_info n).2.length = 2 := by
        simp [bytes_len_info, h1, h2, toLE_length]
      rw [hw, hwb]
      refine ⟨Or.inr (Or.inl rfl), by omega, ?_, rfl, by decide, by decide⟩
      intro w hw hlt
      rcases hw with rfl | rfl | rfl | rfl <;> omega
    · by_cases h3 : n ≤ 4294967295
      · have hw : (str_len_info n).2.length = 4 := by
          simp [str_len_info, h1, h2, h3, toLE_length]
        have hwb : (bytes_len_info n).2.length = 4 := by
          simp [bytes_len_info, h1, h2, h3, toLE_length]
        rw [hw, hwb]
        refine ⟨Or.inr (Or.inr (Or.inl rfl)), by omega, ?_, rfl, by decide, by decide⟩
        intro w hw hlt
        rcases hw with rfl | rfl | rfl | rfl <;> omega
      · have hw : (str_len_info n).2.length = 8 := by
          simp [str_len_info, h1, h2, h3, toLE_length]
        have hwb : (bytes_len_info n).2.length = 8 := by
          simp [bytes_len_info, h1, h2, h3, toLE_length]
        rw [hw, hwb]
        refine ⟨Or.inr (Or.inr (Or.inr rfl)), by omega, ?_, rfl, by decide, by decide⟩
        intro w hw hlt
        rcases hw with rfl | rfl | rfl | rfl <;> omega

/-- Witness for C6 at payload length 256. -/
theorem c6_minimal_length_field_witness :
    (str_len_info 256).2.length = 2 :=
  (c6_minimal_length_field 256 (by decide)).2.2.2.2.2

/-- C7: encoding the unsigned 64-bit value 40000000000 with an Anonymous tag
produces exactly the nine bytes `[0x07,0x00,0x90,0x2F,0x50,0x09,0x00,0x00,
0x00]`, and decoding that buffer yields tag Anonymous, the unsigned 8-octet
integer element type, and the value 40000000000. -/
theorem c7_control_byte_example :
    encode_tlv_u64 .Anonymous 40000000000
        = [0x07, 0x00, 0x90, 0x2F, 0x50, 0x09, 0x00, 0x00, 0x00] ∧
    (TLVReader.new [0x07, 0x00, 0x90, 0x2F, 0x50, 0x09, 0x00, 0x00, 0x00]).read_tag
        = .ok .Anonymous ∧
    (TLVReader.new
        [0x07, 0x00, 0x90, 0x2F, 0x50, 0x09, 0x00, 0x00, 0x00]).parse_control_byte_for_tag_and_type
        = .ok ([0x00, 0x90, 0x2F, 0x50, 0x09, 0x00, 0x00, 0x00], .Anonymous,
            .Primitive (.Predetermined (.UnsignedInteger .UInt64))) ∧
    (TLVReader.new [0x07, 0x00, 0x90, 0x2F, 0x50, 0x09, 0x00, 0x00, 0x00]).read_u64
        = .ok 40000000000 := by
  decide

/-- C8: `octets_count` is the constant determined solely by the tag variant
(0, 1, 2, 4, 2, 4, 6, 8), and `tag_bytes` produces exactly that many bytes,
independently of the numeric contents of the tag's fields. -/
theorem c8_tag_octets_and_bytes (tag : TLVTag) :
    (tag_bytes tag).length = tag.octets_count ∧
    tag.octets_count = (match tag with
      | .Anonymous => 0
      | .ContextSpecific _ => 1
      | .CommonProfile (.TwoOctets _) => 2
      | .CommonProfile (.FourOctets _) => 4
      | .ImplicitProfile (.TwoOctets _) => 2
      | .ImplicitProfile (.FourOctets _) => 4
      | .FullyQualifiedProfile (.SixOctets _ _ _) => 6
      | .FullyQualifiedProfile (.EightOctets _ _ _) => 8) := by
  cases tag with
  | Anonymous => exact ⟨rfl, rfl⟩
  | ContextSpecific n =>
    exact ⟨by simp [tag_bytes, toLE_length, TLVTag.octets_count], rfl⟩
  | CommonProfile p =>
    cases p <;> exact ⟨by simp [tag_bytes, toLE_length, TLVTag.octets_count], rfl⟩
  | ImplicitProfile p =>
    cases p <;> exact ⟨by simp [tag_bytes, toLE_length, TLVTag.octets_count], rfl⟩
  | FullyQualifiedProfile p =>
    cases p <;> exact ⟨by simp [tag_bytes, toLE_length, TLVTag.octets_count], rfl⟩

/-- C9 counterexample: in the 32-element 5-bit code space there are exactly
7 codes on which `ElementType` decoding fails (0x19–0x1F), not 3. -/
theorem c9_unassigned_count_counterexample :
    ((List.range 32).filter
        (fun b => !(ElementType.tryFrom b).isOk)).length = 7 ∧ (7 : Nat) ≠ 3 := by
  decide

/-- C9 amended: decoding a 5-bit element type code succeeds for every one of
the 25 defined codes 0x00–0x18 and fails with `InvalidType` for exactly the
7 unassigned codes 0x19–0x1F. -/
theorem c9_type_code_decoding (b : Nat) (h : b < 2 ^ 5) :
    (b ≤ 0x18 ↔ (ElementType.tryFrom b).isOk = true) ∧
    (0x18 < b → ElementType.tryFrom b = .error .InvalidType) := by
  interval_cases b <;> exact ⟨by decide, by decide⟩

/-- Witness for C9 at code 0x1A. -/
theorem c9_type_code_decoding_witness :
    ¬ ((0x1A : Nat) ≤ 0x18) ∧ ElementType.tryFrom 0x1A = .error .InvalidType :=
  ⟨by decide, (c9_type_code_decoding 0x1A (by decide)).2 (by decide)⟩

theorem pcbtt_of_parse (r : TLVReader) (b : Nat) (rest rb : List Nat) (tag : TLVTag)
    (h1 : r.current_element 0 = b :: rest)
    (h2 : parse_tag (b / 2 ^ 5 * 2 ^ 5) rest = .ok (rb, tag)) :
    r.parse_control_byte_for_tag_and_type
      = match tlv_type (b % 2 ^ 5) with
        | .error e => .error e
        | .ok ty => .ok (rb, tag, ty) := by
  rw [TLVReader.parse_control_byte_for_tag_and_type, TLVReader.parse_control_byte, h1]
  simp only [h2]

set_option maxHeartbeats 1000000 in
/-- C5: each typed accessor `read_<kind>` returns a value only when the
element's decoded 5-bit type code corresponds exactly to that kind (no
widening or narrowing between widths or kinds), and fails with `InvalidType`
when the element's type is any other code. -/
theorem c5_accessor_type_guard (r : TLVReader) (b : Nat) (rest rb : List Nat)
    (tag : TLVTag) (k : AccessorKind)
    (h1 : r.current_element 0 = b :: rest)
    (h2 : parse_tag (b / 2 ^ 5 * 2 ^ 5) rest = .ok (rb, tag)) :
    (b % 2 ^ 5 ∉ matching_codes k → read_kind r k = .error .InvalidType) ∧
    ((read_kind r k).isOk = true → b % 2 ^ 5 ∈ matching_codes k) := by
  have hp := pcbtt_of_parse r b rest rb tag h1 h2
  have ht : b % 2 ^ 5 < 2 ^ 5 := Nat.mod_lt _ (by norm_num)
  generalize b % 2 ^ 5 = t at hp ht ⊢
  clear h1 h2
  have hfirst : t ∉ matching_codes k → read_kind r k = .error .InvalidType := by
    intro hmem
    interval_cases t <;>
      simp only [tlv_type, ElementType.tryFrom, TLVType.fromElementType] at hp <;>
      cases k <;>
      simp_all [read_kind, TLVReader.read_u8, TLVReader.read_u16, TLVReader.read_u32,
        TLVReader.read_u64, TLVReader.read_i8, TLVReader.read_i16, TLVReader.read_i32,
        TLVReader.read_i64, TLVReader.read_f32, TLVReader.read_f64, TLVReader.read_bool,
        TLVReader.read_null, TLVReader.read_char_str, TLVReader.read_byte_str,
        matching_codes, Except.map]
  refine ⟨hfirst, ?_⟩
  intro hok
  by_contra hmem
  rw [hfirst hmem] at hok
  exact absurd hok (by decide)

/-- Witness for C5: a u16 element read through `read_u8` fails with
`InvalidType`. -/
theorem c5_accessor_type_guard_witness :
    read_kind (TLVReader.new [0x05, 0x00, 0x00]) .ku8 = .error .InvalidType :=
  (c5_accessor_type_guard (TLVReader.new [0x05, 0x00, 0x00]) 0x05 [0x00, 0x00]
    [0x00, 0x00] .Anonymous .ku8 (by decide) (by decide)).1 (by decide)

theorem parse_u8_error (bytes : List Nat) (e : TLVError)
    (h : parse_u8 bytes = .error e) : e = .ParseError := by
  unfold parse_u8 at h
  split at h <;> simp_all

theorem parse_u16_error (bytes : List Nat) (e : TLVError)
    (h : parse_u16 bytes = .error e) : e = .ParseError := by
  unfold parse_u16 at h
  split at h <;> simp_all

theorem parse_u32_error (bytes : List Nat) (e : TLVError)
    (h : parse_u32 bytes = .error e) : e = .ParseError := by
  unfold parse_u32 at h
  split at h <;> simp_all

theorem parse_u64_error (bytes : List Nat) (e : TLVError)
    (h : parse_u64 bytes = .error e) : e = .ParseError := by
  unfold parse_u64 at h
  split at h <;> simp_all

theorem parse_i8_error (bytes : List Nat) (e : TLVError)
    (h : parse_i8 bytes = .error e) : e = .ParseError := by
  rw [parse_i8] at h
  rcases hu : parse_u8 bytes with e1 | ⟨rs, v⟩ <;> rw [hu] at h <;>
    simp only [] at h
  · injection h with h1
    rw [← h1]
    exact parse_u8_error _ _ hu
  · exact Except.noConfusion h

theorem parse_i16_error (bytes : List Nat) (e : TLVError)
    (h : parse_i16 bytes = .error e) : e = .ParseError := by
  rw [parse_i16] at h
  rcases hu : parse_u16 bytes with e1 | ⟨rs, v⟩ <;> rw [hu] at h <;>
    simp only [] at h
  · injection h with h1
    rw [← h1]
    exact parse_u16_error _ _ hu
  · exact Except.noConfusion h

theorem parse_i32_error (bytes : List Nat) (e : TLVError)
    (h : parse_i32 bytes = .error e) : e = .ParseError := by
  rw [parse_i32] at h
  rcases hu : parse_u32 bytes with e1 | ⟨rs, v⟩ <;> rw [hu] at h <;>
    simp only [] at h
  · injection h with h1
    rw [← h1]
    exact parse_u32_error _ _ hu
  · exact Except.noConfusion h

theorem parse_i64_error (bytes : List Nat) (e : TLVError)
    (h : parse_i64 bytes = .error e) : e = .ParseError := by
  rw [parse_i64] at h
  rcases hu : parse_u64 bytes with e1 | ⟨rs, v⟩ <;> rw [hu] at h <;>
    simp only [] at h
  · injection h with h1
    rw [← h1]
    exact parse_u64_error _ _ hu
  · exact Except.noConfusion h

theorem parse_u8_ok_mem (bytes rs : List Nat) (v : Nat)
    (h : parse_u8 bytes = .ok (rs, v)) : ∀ x ∈ rs, x ∈ bytes := by
  unfold parse_u8 at h
  split at h <;> simp_all

theorem parse_u16_ok_mem (bytes rs : List Nat) (v : Nat)
    (h : parse_u16 bytes = .ok (rs, v)) : ∀ x ∈ rs, x ∈ bytes := by
  unfold parse_u16 at h
  split at h <;> simp_all

theorem parse_u32_ok_mem (bytes rs : List Nat) (v : Nat)
    (h : parse_u32 bytes = .ok (rs, v)) : ∀ x ∈ rs, x ∈ bytes := by
  unfold parse_u32 at h
  split at h <;> simp_all

theorem parse_u64_ok_mem (bytes rs : List Nat) (v : Nat)
    (h : parse_u64 bytes = .ok (rs, v)) : ∀ x ∈ rs, x ∈ bytes := by
  unfold parse_u64 at h
  split at h <;> simp_all

theorem elementType_tryFrom_error (t : Nat) (e : TLVError)
    (h : ElementType.tryFrom t = .error e) : e = .InvalidType := by
  unfold ElementType.tryFrom at h
  split at h <;> simp_all

theorem tlv_type_error (t : Nat) (e : TLVError)
    (h : tlv_type t = .error e) : e = .InvalidType := by
  rw [tlv_type] at h
  rcases het : ElementType.tryFrom t with e1 | et <;> rw [het] at h <;>
    simp only [] at h
  · injection h with h1
    rw [← h1]
    exact elementType_tryFrom_error _ _ het
  · cases et <;> simp_all [TLVType.fromElementType]

theorem allBytes_mem (l : List Nat) (h : allBytes l = true) :
    ∀ x ∈ l, x < 2 ^ 8 := by
  simp only [allBytes, List.all_eq_true, decide_eq_true_eq] at h
  exact h

theorem allBytes_of_mem (l l' : List Nat) (h : allBytes l = true)
    (hsub : ∀ x ∈ l', x ∈ l) : allBytes l' = true := by
  simp only [allBytes, List.all_eq_true, decide_eq_true_eq] at h ⊢
  exact fun x hx => h x (hsub x hx)

theorem tagControl_of_byte (b : Nat) (hb : b < 2 ^ 8) :
    ∃ tc, TagControl.tryFrom (b / 2 ^ 5 * 2 ^ 5) = .ok tc := by
  have h8 : b / 2 ^ 5 < 8 := by omega
  generalize b / 2 ^ 5 = q at h8 ⊢
  interval_cases q <;> exact ⟨_, rfl⟩

theorem except_map_ne_error {α β : Type} (x : Except TLVError α) (f : α → β)
    (e : TLVError) (h : x ≠ .error e) : x.map f ≠ .error e := by
  cases x <;> simp_all [Except.map]

theorem parse_tag_error (tcb : Nat) (rest : List Nat) (e : TLVError) (tc : TagControl)
    (htc : TagControl.tryFrom tcb = .ok tc)
    (h : parse_tag tcb rest = .error e) : e = .ParseError := by
  rw [parse_tag, htc] at h
  cases tc <;> simp only [] at h
  case Anonymous => exact Except.noConfusion h
  case ContextSpecific =>
    rcases hu : parse_u8 rest with e1 | ⟨rs, n⟩ <;> rw [hu] at h <;> simp only [] at h
    · injection h with h1
      rw [← h1]
      exact parse_u8_error _ _ hu
    · exact Except.noConfusion h
  case CommonProfile2Bytes =>
    rcases hu : parse_u16 rest with e1 | ⟨rs, n⟩ <;> rw [hu] at h <;> simp only [] at h
    · injection h with h1
      rw [← h1]
      exact parse_u16_error _ _ hu
    · exact Except.noConfusion h
  case CommonProfile4Bytes =>
    rcases hu : parse_u32 rest with e1 | ⟨rs, n⟩ <;> rw [hu] at h <;> simp only [] at h
    · injection h with h1
      rw [← h1]
      exact parse_u32_error _ _ hu
    · exact Except.noConfusion h
  case ImplicitProfile2Bytes =>
    rcases hu : parse_u16 rest with e1 | ⟨rs, n⟩ <;> rw [hu] at h <;> simp only [] at h
    · injection h with h1
      rw [← h1]
      exact parse_u16_error _ _ hu
    · exact Except.noConfusion h
  case ImplicitProfile4Bytes =>
    rcases hu : parse_u32 rest with e1 | ⟨rs, n⟩ <;> rw [hu] at h <;> simp only [] at h
    · injection h with h1
      rw [← h1]
      exact parse_u32_error _ _ hu
    · exact Except.noConfusion h
  case FullyQualified6Bytes =>
    rcases hu1 : parse_u16 rest with e1 | ⟨r1, v1⟩ <;> rw [hu1] at h <;> simp only [] at h
    · injection h with h1
      rw [← h1]
      exact parse_u16_error _ _ hu1
    · rcases hu2 : parse_u16 r1 with e2 | ⟨r2, v2⟩ <;> rw [hu2] at h <;> simp only [] at h
      · injection h with h1
        rw [← h1]
        exact parse_u16_error _ _ hu2
      · rcases hu3 : parse_u16 r2 with e3 | ⟨r3, v3⟩ <;> rw [hu3] at h <;> simp only [] at h
        · injection h with h1
          rw [← h1]
          exact parse_u16_error _ _ hu3
        · exact Except.noConfusion h
  case FullyQualified8Bytes =>
    rcases hu1 : parse_u16 rest with e1 | ⟨r1, v1⟩ <;> rw [hu1] at h <;> simp only [] at h
    · injection h with h1
      rw [← h1]
      exact parse_u16_error _ _ hu1
    · rcases hu2 : parse_u16 r1 with e2 | ⟨r2, v2⟩ <;> rw [hu2] at h <;> simp only [] at h
      · injection h with h1
        rw [← h1]
        exact parse_u16_error _ _ hu2
      · rcases hu3 : parse_u32 r2 with e3 | ⟨r3, v3⟩ <;> rw [hu3] at h <;> simp only [] at h
        · injection h with h1
          rw [← h1]
          exact parse_u32_error _ _ hu3
        · exact Except.noConfusion h

theorem parse_tag_ok_mem (tcb : Nat) (rest rb : List Nat) (tag : TLVTag)
    (h : parse_tag tcb rest = .ok (rb, tag)) : ∀ x ∈ rb, x ∈ rest := by
  rw [parse_tag] at h
  rcases htc : TagControl.tryFrom tcb with e0 | tc <;> rw [htc] at h <;> simp only [] at h
  · exact Except.noConfusion h
  · cases tc <;> simp only [] at h
    case Anonymous =>
      simp only [Except.ok.injEq, Prod.mk.injEq] at h
      obtain ⟨h1, _⟩ := h
      subst h1
      exact fun x hx => hx
    case ContextSpecific =>
      rcases hu : parse_u8 rest with e1 | ⟨rs, n⟩ <;> rw [hu] at h <;> simp only [] at h
      · exact Except.noConfusion h
      · simp only [Except.ok.injEq, Prod.mk.injEq] at h
        obtain ⟨h1, _⟩ := h
        subst h1
        exact parse_u8_ok_mem _ _ _ hu
    case CommonProfile2Bytes =>
      rcases hu : parse_u16 rest with e1 | ⟨rs, n⟩ <;> rw [hu] at h <;> simp only [] at h
      · exact Except.noConfusion h
      · simp only [Except.ok.injEq, Prod.mk.injEq] at h
        obtain ⟨h1, _⟩ := h
        subst h1
        exact parse_u16_ok_mem _ _ _ hu
    case CommonProfile4Bytes =>
      rcases hu : parse_u32 rest with e1 | ⟨rs, n⟩ <;> rw [hu] at h <;> simp only [] at h
      · exact Except.noConfusion h
      · simp only [Except.ok.injEq, Prod.mk.injEq] at h
        obtain ⟨h1, _⟩ := h
        subst h1
        exact parse_u32_ok_mem _ _ _ hu
    case ImplicitProfile2Bytes =>
      rcases hu : parse_u16 rest with e1 | ⟨rs, n⟩ <;> rw [hu] at h <;> simp only [] at h
      · exact Except.noConfusion h
      · simp only [Except.ok.injEq, Prod.mk.injEq] at h
        obtain ⟨h1, _⟩ := h
        subst h1
        exact parse_u16_ok_mem _ _ _ hu
    case ImplicitProfile4Bytes =>
      rcases hu : parse_u32 rest with e1 | ⟨rs, n⟩ <;> rw [hu] at h <;> simp only [] at h
      · exact Except.noConfusion h
      · simp only [Except.ok.injEq, Prod.mk.injEq] at h
        obtain ⟨h1, _⟩ := h
        subst h1
        exact parse_u32_ok_mem _ _ _ hu
    case FullyQualified6Bytes =>
      rcases hu1 : parse_u16 rest with e1 | ⟨r1, v1⟩ <;> rw [hu1] at h <;> simp only [] at h
      · exact Except.noConfusion h
      · rcases hu2 : parse_u16 r1 with e2 | ⟨r2, v2⟩ <;> rw [hu2] at h <;> simp only [] at h
        · exact Except.noConfusion h
        · rcases hu3 : parse_u16 r2 with e3 | ⟨r3, v3⟩ <;> rw [hu3] at h <;>
            simp only [] at h
          · exact Except.noConfusion h
          · simp only [Except.ok.injEq, Prod.mk.injEq] at h
            obtain ⟨h1, _⟩ := h
            subst h1
            exact fun x hx => parse_u16_ok_mem _ _ _ hu1 x
              (parse_u16_ok_mem _ _ _ hu2 x (parse_u16_ok_mem _ _ _ hu3 x hx))
    case FullyQualified8Bytes =>
      rcases hu1 : parse_u16 rest with e1 | ⟨r1, v1⟩ <;> rw [hu1] at h <;> simp only [] at h
      · exact Except.noConfusion h
      · rcases hu2 : parse_u16 r1 with e2 | ⟨r2, v2⟩ <;> rw [hu2] at h <;> simp only [] at h
        · exact Except.noConfusion h
        · rcases hu3 : parse_u32 r2 with e3 | ⟨r3, v3⟩ <;> rw [hu3] at h <;>
            simp only [] at h
          · exact Except.noConfusion h
          · simp only [Except.ok.injEq, Prod.mk.injEq] at h
            obtain ⟨h1, _⟩ := h
            subst h1
            exact fun x hx => parse_u16_ok_mem _ _ _ hu1 x
              (parse_u16_ok_mem _ _ _ hu2 x (parse_u32_ok_mem _ _ _ hu3 x hx))

theorem parse_field_size_error (fs : TLVFieldSize) (bytes : List Nat) (e : TLVError)
    (h : parse_field_size fs bytes = .error e) : e = .UnderRun ∨ e = .ParseError := by
  rw [parse_field_size.eq_def] at h
  split at h
  · injection h with h1
    exact Or.inl h1.symm
  · cases fs <;> simp only [] at h
    case OneOctet =>
      rcases hu : parse_u8 bytes with e1 | ⟨rs, v⟩ <;> rw [hu] at h <;> simp only [] at h
      · injection h with h1
        rw [← h1]
        exact Or.inr (parse_u8_error _ _ hu)
      · exact Except.noConfusion h
    case TwoOctets =>
      rcases hu : parse_u16 bytes with e1 | ⟨rs, v⟩ <;> rw [hu] at h <;> simp only [] at h
      · injection h with h1
        rw [← h1]
        exact Or.inr (parse_u16_error _ _ hu)
      · exact Except.noConfusion h
    case FourOctets =>
      rcases hu : parse_u32 bytes with e1 | ⟨rs, v⟩ <;> rw [hu] at h <;> simp only [] at h
      · injection h with h1
        rw [← h1]
        exact Or.inr (parse_u32_error _ _ hu)
      · exact Except.noConfusion h
    case EightOctets =>
      rcases hu : parse_u64 bytes with e1 | ⟨rs, v⟩ <;> rw [hu] at h <;> simp only [] at h
      · injection h with h1
        rw [← h1]
        exact Or.inr (parse_u64_error _ _ hu)
      · exact Except.noConfusion h

theorem parse_primitive_len_error (plt : PrimitiveLengthType) (bytes : List Nat)
    (e : TLVError) (h : parse_primitive_len plt bytes = .error e) :
    e = .UnderRun ∨ e = .ParseError := by
  rw [parse_primitive_len.eq_def] at h
  cases plt <;> simp only [] at h
  case Predetermined p => exact Except.noConfusion h
  case Specified s =>
    rcases hf : parse_field_size s.length_field_size bytes with e1 | ⟨rs, c⟩ <;>
      rw [hf] at h <;> simp only [] at h
    · injection h with h1
      rw [← h1]
      exact parse_field_size_error _ _ _ hf
    · exact Except.noConfusion h

theorem pcbtt_ok_mem (r : TLVReader) (rb : List Nat) (tag : TLVTag) (ty : TLVType)
    (h : r.parse_control_byte_for_tag_and_type = .ok (rb, tag, ty)) :
    ∀ x ∈ rb, x ∈ r.payload := by
  rw [TLVReader.parse_control_byte_for_tag_and_type, TLVReader.parse_control_byte] at h
  rcases hc : r.current_element 0 with _ | ⟨b, rest⟩ <;> rw [hc] at h <;> simp only [] at h
  · exact Except.noConfusion h
  · rcases hpt : parse_tag (b / 2 ^ 5 * 2 ^ 5) rest with e1 | ⟨rb', tag'⟩ <;>
      rw [hpt] at h <;> simp only [] at h
    · exact Except.noConfusion h
    · rcases htt : tlv_type (b % 2 ^ 5) with e2 | ty' <;> rw [htt] at h <;> simp only [] at h
      · exact Except.noConfusion h
      · simp only [Except.ok.injEq, Prod.mk.injEq] at h
        obtain ⟨h1, _, _⟩ := h
        subst h1
        intro x hx
        have hx1 : x ∈ rest := parse_tag_ok_mem _ _ _ _ hpt x hx
        have hx2 : x ∈ r.current_element 0 := by
          rw [hc]
          exact List.mem_cons_of_mem _ hx1
        rw [TLVReader.current_element] at hx2
        exact List.drop_subset _ _ hx2

theorem pcbtt_not_invalid_tag (r : TLVReader) (hb : allBytes r.payload = true) :
    r.parse_control_byte_for_tag_and_type ≠ .error .InvalidTag := by
  rw [TLVReader.parse_control_byte_for_tag_and_type, TLVReader.parse_control_byte]
  rcases hc : r.current_element 0 with _ | ⟨b, rest⟩
  · simp
  · have hbmem : b ∈ r.payload := by
      have hm : b ∈ r.current_element 0 := by
        rw [hc]
        exact List.mem_cons_self _ _
      rw [TLVReader.current_element] at hm
      exact List.drop_subset _ _ hm
    have hbb : b < 2 ^ 8 := allBytes_mem _ hb b hbmem
    obtain ⟨tc, htc⟩ := tagControl_of_byte b hbb
    rcases hpt : parse_tag (b / 2 ^ 5 * 2 ^ 5) rest with e1 | ⟨rb, tag⟩
    · have he : e1 = .ParseError := parse_tag_error _ _ _ tc htc hpt
      subst he
      have hpt32 : parse_tag (b / 32 * 32) rest = .error .ParseError := hpt
      simp [hpt32]
    · have hpt32 : parse_tag (b / 32 * 32) rest = .ok (rb, tag) := hpt
      rcases htt : tlv_type (b % 2 ^ 5) with e2 | ty
      · have he : e2 = .InvalidType := tlv_type_error _ _ htt
        subst he
        have htt32 : tlv_type (b % 32) = .error .InvalidType := htt
        simp [hpt32, htt32]
      · have htt32 : tlv_type (b % 32) = .ok ty := htt
        simp [hpt32, htt32]

theorem skip_elements_not_invalid_tag (fuel : Nat) :
    ∀ (bytes : List Nat) (depth : Nat), allBytes bytes = true →
      skip_elements bytes depth fuel ≠ .error .InvalidTag := by
  induction fuel with
  | zero =>
    intro bytes depth hb
    cases depth <;> simp [skip_elements]
  | succ f ih =>
    intro bytes depth hb
    cases depth with
    | zero => simp [skip_elements]
    | succ d =>
      cases bytes with
      | nil => simp [skip_elements]
      | cons b rest =>
        have hbb : b < 2 ^ 8 := allBytes_mem _ hb b (List.mem_cons_self _ _)
        have hrest : allBytes rest = true :=
          allBytes_of_mem _ _ hb (fun x hx => List.mem_cons_of_mem _ hx)
        obtain ⟨tc, htc⟩ := tagControl_of_byte b hbb
        rw [skip_elements.eq_def]
        simp only []
        rcases hpt : parse_tag (b / 2 ^ 5 * 2 ^ 5) rest with e1 | ⟨rb, tag⟩ <;> simp only []
        · have he : e1 = .ParseError := parse_tag_error _ _ _ tc htc hpt
          subst he
          simp
        · have hrb : allBytes rb = true :=
            allBytes_of_mem _ _ hrest (parse_tag_ok_mem _ _ _ _ hpt)
          split
          · rcases hs : skip_elements rb d f with e2 | n <;> simp only []
            · intro hcon
              injection hcon with h1
              exact ih rb d hrb (by rw [hs, h1])
            · simp
          · split
            · rcases hs : skip_elements rb (d + 2) f with e2 | n <;> simp only []
              · intro hcon
                injection hcon with h1
                exact ih rb (d + 2) hrb (by rw [hs, h1])
              · simp
            · rcases htt : tlv_type (b % 2 ^ 5) with e2 | ty
              · simp only []
                have he : e2 = .InvalidType := tlv_type_error _ _ htt
                subst he
                simp
              · cases ty with
                | Container c => simp
                | Primitive plt =>
                  simp only []
                  rcases hpl : parse_primitive_len plt rb with e3 | ⟨rs, lo, vo⟩ <;>
                    simp only []
                  · rcases parse_primitive_len_error _ _ _ hpl with he | he <;> subst he <;>
                      simp
                  · split
                    · rcases hs : skip_elements (rb.drop (lo + vo)) (d + 1) f with e4 | n <;> simp only []
                      · intro hcon
                        injection hcon with h1
                        exact ih _ _ (allBytes_of_mem _ _ hrb (List.drop_subset _ _))
                          (by rw [hs, h1])
                      · simp
                    · simp

theorem read_tag_not_invalid_tag (r : TLVReader) (hb : allBytes r.payload = true) :
    r.read_tag ≠ .error .InvalidTag := by
  rw [TLVReader.read_tag]
  rcases hpc : r.parse_control_byte_for_tag_and_type with e | ⟨rb, tag, ty⟩
  · have hp := pcbtt_not_invalid_tag r hb
    rw [hpc] at hp
    simpa using hp
  · simp

theorem next_not_invalid_tag (r : TLVReader) (hb : allBytes r.payload = true) :
    r.next ≠ .error .InvalidTag := by
  rw [TLVReader.next]
  rcases hpc : r.parse_control_byte_for_tag_and_type with e | ⟨rb, tag, ty⟩
  · have hp := pcbtt_not_invalid_tag r hb
    rw [hpc] at hp
    simpa using hp
  · simp only []
    cases ty with
    | Container c =>
      simp only []
      have hrb : allBytes rb = true := allBytes_of_mem _ _ hb (pcbtt_ok_mem _ _ _ _ hpc)
      rcases hs : skip_elements rb 1 (rb.length + 1) with e2 | n <;> simp only []
      · intro hcon
        injection hcon with h1
        exact skip_elements_not_invalid_tag _ rb 1 hrb (by rw [hs, h1])
      · split
        · simp
        · split <;> simp
    | Primitive plt =>
      simp only []
      rcases hpl : parse_primitive_len plt rb with e2 | ⟨rs, lo, vo⟩ <;> simp only []
      · rcases parse_primitive_len_error _ _ _ hpl with he | he <;> subst he <;> simp
      · split
        · simp
        · split <;> simp

theorem read_u8_not_invalid_tag (r : TLVReader) (hb : allBytes r.payload = true) :
    r.read_u8 ≠ .error .InvalidTag := by
  rw [TLVReader.read_u8]
  rcases hpc : r.parse_control_byte_for_tag_and_type with e | ⟨rb, tag, ty⟩
  · have hp := pcbtt_not_invalid_tag r hb
    rw [hpc] at hp
    simpa using hp
  · simp only []
    split
    · rcases hv : parse_u8 rb with e1 | ⟨rs, v⟩ <;> simp only []
      · have he : e1 = .ParseError := parse_u8_error _ _ hv
        subst he
        simp
      · simp
    · simp

theorem read_u16_not_invalid_tag (r : TLVReader) (hb : allBytes r.payload = true) :
    r.read_u16 ≠ .error .InvalidTag := by
  rw [TLVReader.read_u16]
  rcases hpc : r.parse_control_byte_for_tag_and_type with e | ⟨rb, tag, ty⟩
  · have hp := pcbtt_not_invalid_tag r hb
    rw [hpc] at hp
    simpa using hp
  · simp only []
    split
    · rcases hv : parse_u16 rb with e1 | ⟨rs, v⟩ <;> simp only []
      · have he : e1 = .ParseError := parse_u16_error _ _ hv
        subst he
        simp
      · simp
    · simp

theorem read_u32_not_invalid_tag (r : TLVReader) (hb : allBytes r.payload = true) :
    r.read_u32 ≠ .error .InvalidTag := by
  rw [TLVReader.read_u32]
  rcases hpc : r.parse_control_byte_for_tag_and_type with e | ⟨rb, tag, ty⟩
  · have hp := pcbtt_not_invalid_tag r hb
    rw [hpc] at hp
    simpa using hp
  · simp only []
    split
    · rcases hv : parse_u32 rb with e1 | ⟨rs, v⟩ <;> simp only []
      · have he : e1 = .ParseError := parse_u32_error _ _ hv
        subst he
        simp
      · simp
    · simp

theorem read_u64_not_invalid_tag (r : TLVReader) (hb : allBytes r.payload = true) :
    r.read_u64 ≠ .error .InvalidTag := by
  rw [TLVReader.read_u64]
  rcases hpc : r.parse_control_byte_for_tag_and_type with e | ⟨rb, tag, ty⟩
  · have hp := pcbtt_not_invalid_tag r hb
    rw [hpc] at hp
    simpa using hp
  · simp only []
    split
    · rcases hv : parse_u64 rb with e1 | ⟨rs, v⟩ <;> simp only []
      · have he : e1 = .ParseError := parse_u64_error _ _ hv
        subst he
        simp
      · simp
    · simp

theorem read_i8_not_invalid_tag (r : TLVReader) (hb : allBytes r.payload = true) :
    r.read_i8 ≠ .error .InvalidTag := by
  rw [TLVReader.read_i8]
  rcases hpc : r.parse_control_byte_for_tag_and_type with e | ⟨rb, tag, ty⟩
  · have hp := pcbtt_not_invalid_tag r hb
    rw [hpc] at hp
    simpa using hp
  · simp only []
    split
    · rcases hv : parse_i8 rb with e1 | ⟨rs, v⟩ <;> simp only []
      · have he : e1 = .ParseError := parse_i8_error _ _ hv
        subst he
        simp
      · simp
    · simp

theorem read_i16_not_invalid_tag (r : TLVReader) (hb : allBytes r.payload = true) :
    r.read_i16 ≠ .error .InvalidTag := by
  rw [TLVReader.read_i16]
  rcases hpc : r.parse_control_byte_for_tag_and_type with e | ⟨rb, tag, ty⟩
  · have hp := pcbtt_not_invalid_tag r hb
    rw [hpc] at hp
    simpa using hp
  · simp only []
    split
    · rcases hv : parse_i16 rb with e1 | ⟨rs, v⟩ <;> simp only []
      · have he : e1 = .ParseError := parse_i16_error _ _ hv
        subst he
        simp
      · simp
    · simp

theorem read_i32_not_invalid_tag (r : TLVReader) (hb : allBytes r.payload = true) :
    r.read_i32 ≠ .error .InvalidTag := by
  rw [TLVReader.read_i32]
  rcases hpc : r.parse_control_byte_for_tag_and_type with e | ⟨rb, tag, ty⟩
  · have hp := pcbtt_not_invalid_tag r hb
    rw [hpc] at hp
    simpa using hp
  · simp only []
    split
    · rcases hv : parse_i32 rb with e1 | ⟨rs, v⟩ <;> simp only []
      · have he : e1 = .ParseError := parse_i32_error _ _ hv
        subst he
        simp
      · simp
    · simp

theorem read_i64_not_invalid_tag (r : TLVReader) (hb : allBytes r.payload = true) :
    r.read_i64 ≠ .error .InvalidTag := by
  rw [TLVReader.read_i64]
  rcases hpc : r.parse_control_byte_for_tag_and_type with e | ⟨rb, tag, ty⟩
  · have hp := pcbtt_not_invalid_tag r hb
    rw [hpc] at hp
    simpa using hp
  · simp only []
    split
    · rcases hv : parse_i64 rb with e1 | ⟨rs, v⟩ <;> simp only []
      · have he : e1 = .ParseError := parse_i64_error _ _ hv
        subst he
        simp
      · simp
    · simp

theorem read_f32_not_invalid_tag (r : TLVReader) (hb : allBytes r.payload = true) :
    r.read_f32 ≠ .error .InvalidTag := by
  rw [TLVReader.read_f32]
  rcases hpc : r.parse_control_byte_for_tag_and_type with e | ⟨rb, tag, ty⟩
  · have hp := pcbtt_not_invalid_tag r hb
    rw [hpc] at hp
    simpa using hp
  · simp only []
    split
    · rcases hv : parse_f32bits rb with e1 | ⟨rs, v⟩ <;> simp only []
      · have he : e1 = .ParseError := parse_u32_error _ _ hv
        subst he
        simp
      · simp
    · simp

theorem read_f64_not_invalid_tag (r : TLVReader) (hb : allBytes r.payload = true) :
    r.read_f64 ≠ .error .InvalidTag := by
  rw [TLVReader.read_f64]
  rcases hpc : r.parse_control_byte_for_tag_and_type with e | ⟨rb, tag, ty⟩
  · have hp := pcbtt_not_invalid_tag r hb
    rw [hpc] at hp
    simpa using hp
  · simp only []
    split
    · rcases hv : parse_f64bits rb with e1 | ⟨rs, v⟩ <;> simp only []
      · have he : e1 = .ParseError := parse_u64_error _ _ hv
        subst he
        simp
      · simp
    · simp

theorem read_bool_not_invalid_tag (r : TLVReader) (hb : allBytes r.payload = true) :
    r.read_bool ≠ .error .InvalidTag := by
  rw [TLVReader.read_bool]
  rcases hpc : r.parse_control_byte_for_tag_and_type with e | ⟨rb, tag, ty⟩
  · have hp := pcbtt_not_invalid_tag r hb
    rw [hpc] at hp
    simpa using hp
  · simp only []
    split
    · simp
    · split <;> simp

theorem read_null_not_invalid_tag (r : TLVReader) (hb : allBytes r.payload = true) :
    r.read_null ≠ .error .InvalidTag := by
  rw [TLVReader.read_null]
  rcases hpc : r.parse_control_byte_for_tag_and_type with e | ⟨rb, tag, ty⟩
  · have hp := pcbtt_not_invalid_tag r hb
    rw [hpc] at hp
    simpa using hp
  · simp only []
    split <;> simp

theorem read_byte_str_not_invalid_tag (r : TLVReader) (hb : allBytes r.payload = true) :
    r.read_byte_str ≠ .error .InvalidTag := by
  rw [TLVReader.read_byte_str]
  rcases hpc : r.parse_control_byte_for_tag_and_type with e | ⟨rb, tag, ty⟩
  · have hp := pcbtt_not_invalid_tag r hb
    rw [hpc] at hp
    simpa using hp
  · simp only []
    split
    · rename_i s
      rcases hf : parse_field_size s.length_field_size rb with e1 | ⟨rs, len⟩ <;> simp only []
      · rcases parse_field_size_error _ _ _ hf with he | he <;> subst he <;> simp
      · split <;> simp
    · simp

theorem read_char_str_not_invalid_tag (r : TLVReader) (hb : allBytes r.payload = true) :
    r.read_char_str ≠ .error .InvalidTag := by
  rw [TLVReader.read_char_str]
  rcases hpc : r.parse_control_byte_for_tag_and_type with e | ⟨rb, tag, ty⟩
  · have hp := pcbtt_not_invalid_tag r hb
    rw [hpc] at hp
    simpa using hp
  · simp only []
    split
    · rename_i s
      rcases hf : parse_field_size s.length_field_size rb with e1 | ⟨rs, len⟩ <;> simp only []
      · rcases parse_field_size_error _ _ _ hf with he | he <;> subst he <;> simp
      · split
        · simp
        · split <;> simp
    · simp

/-- C10: for every input byte the top 3 control-byte bits, shifted back into
position, form one of the 8 defined tag-control values, so tag decoding
reached through the Reader's peek/read/next paths never returns
`InvalidTag`: the `InvalidTag` branch is unreachable from the Reader's
public operations. -/
theorem c10_invalid_tag_unreachable (r : TLVReader) (hb : allBytes r.payload = true) :
    (∀ b, b < 2 ^ 8 → ∃ tc, TagControl.tryFrom (b / 2 ^ 5 * 2 ^ 5) = .ok tc) ∧
    r.parse_control_byte_for_tag_and_type ≠ .error .InvalidTag ∧
    r.read_tag ≠ .error .InvalidTag ∧
    r.next ≠ .error .InvalidTag ∧
    (∀ k, read_kind r k ≠ .error .InvalidTag) := by
  refine ⟨tagControl_of_byte, pcbtt_not_invalid_tag r hb, read_tag_not_invalid_tag r hb,
    next_not_invalid_tag r hb, ?_⟩
  intro k
  cases k <;> simp only [read_kind] <;> apply except_map_ne_error
  · exact read_u8_not_invalid_tag r hb
  · exact read_u16_not_invalid_tag r hb
  · exact read_u32_not_invalid_tag r hb
  · exact read_u64_not_invalid_tag r hb
  · exact read_i8_not_invalid_tag r hb
  · exact read_i16_not_invalid_tag r hb
  · exact read_i32_not_invalid_tag r hb
  · exact read_i64_not_invalid_tag r hb
  · exact read_f32_not_invalid_tag r hb
  · exact read_f64_not_invalid_tag r hb
  · exact read_bool_not_invalid_tag r hb
  · exact read_null_not_invalid_tag r hb
  · exact read_char_str_not_invalid_tag r hb
  · exact read_byte_str_not_invalid_tag r hb

/-- Witness for C10 on the buffer `[0x04, 0xFF]`. -/
theorem c10_invalid_tag_unreachable_witness :
    (TLVReader.new [0x04, 0xFF]).read_tag ≠ .error .InvalidTag :=
  (c10_invalid_tag_unreachable (TLVReader.new [0x04, 0xFF]) (by decide)).2.2.1

theorem tag_bytes_length (tag : TLVTag) : (tag_bytes tag).length = tag.octets_count := by
  cases tag with
  | Anonymous => rfl
  | ContextSpecific n => simp [tag_bytes, toLE_length, TLVTag.octets_count]
  | CommonProfile p => cases p <;> simp [tag_bytes, toLE_length, TLVTag.octets_count]
  | ImplicitProfile p => cases p <;> simp [tag_bytes, toLE_length, TLVTag.octets_count]
  | FullyQualifiedProfile p =>
    cases p <;> simp [tag_bytes, toLE_length, TLVTag.octets_count]

theorem toLEsigned_length (w : Nat) (v : Int) : (toLEsigned w v).length = w := by
  rw [toLEsigned]
  exact toLE_length _ _

theorem ccode_lt (k : ContainerType) : k.code < 2 ^ 5 := by
  cases k <;> decide

theorem ccode_ne18 (k : ContainerType) : k.code ≠ 0x18 := by
  cases k <;> decide

theorem ccode_or (k : ContainerType) :
    k.code = 0x15 ∨ k.code = 0x16 ∨ k.code = 0x17 := by
  cases k <;> simp [ContainerType.code]

theorem tlv_type_ccode (k : ContainerType) : tlv_type k.code = .ok (.Container k) := by
  cases k <;> rfl

theorem primitive_code_facts (et : ElementType) (plt : PrimitiveLengthType)
    (hty : TLVType.fromElementType et = .ok (.Primitive plt)) :
    et.code ≠ 0x18 ∧ ¬(et.code = 0x15 ∨ et.code = 0x16 ∨ et.code = 0x17) := by
  cases et <;> simp_all [TLVType.fromElementType, ElementType.code]

theorem prim_parts_encode (tag : TLVTag) (v : PrimValue) :
    encode_value_with_tag tag v
      = encode_primitive tag (prim_parts v).1 (prim_parts v).2.1 (prim_parts v).2.2 := by
  cases v <;> rfl

theorem prim_parts_spec (v : PrimValue) (hv : primWF v = true) :
    ∃ plt, TLVType.fromElementType (prim_parts v).1 = .ok (.Primitive plt) ∧
      ∀ tail : List Nat,
        parse_primitive_len plt ((prim_parts v).2.1 ++ ((prim_parts v).2.2 ++ tail))
          = .ok ((prim_parts v).2.2 ++ tail, (prim_parts v).2.1.length,
              (prim_parts v).2.2.length) := by
  cases v with
  | vu8 n =>
    exact ⟨_, rfl, fun tail => by
      simp [parse_primitive_len, PredeterminedLenPrimitive.value_octets_count,
        prim_parts, toLE_length]⟩
  | vu16 n =>
    exact ⟨_, rfl, fun tail => by
      simp [parse_primitive_len, PredeterminedLenPrimitive.value_octets_count,
        prim_parts, toLE_length]⟩
  | vu32 n =>
    exact ⟨_, rfl, fun tail => by
      simp [parse_primitive_len, PredeterminedLenPrimitive.value_octets_count,
        prim_parts, toLE_length]⟩
  | vu64 n =>
    exact ⟨_, rfl, fun tail => by
      simp [parse_primitive_len, PredeterminedLenPrimitive.value_octets_count,
        prim_parts, toLE_length]⟩
  | vi8 n =>
    exact ⟨_, rfl, fun tail => by
      simp [parse_primitive_len, PredeterminedLenPrimitive.value_octets_count,
        prim_parts, toLEsigned_length]⟩
  | vi16 n =>
    exact ⟨_, rfl, fun tail => by
      simp [parse_primitive_len, PredeterminedLenPrimitive.value_octets_count,
        prim_parts, toLEsigned_length]⟩
  | vi32 n =>
    exact ⟨_, rfl, fun tail => by
      simp [parse_primitive_len, PredeterminedLenPrimitive.value_octets_count,
        prim_parts, toLEsigned_length]⟩
  | vi64 n =>
    exact ⟨_, rfl, fun tail => by
      simp [parse_primitive_len, PredeterminedLenPrimitive.value_octets_count,
        prim_parts, toLEsigned_length]⟩
  | vf32 bits =>
    exact ⟨_, rfl, fun tail => by
      simp [parse_primitive_len, PredeterminedLenPrimitive.value_octets_count,
        prim_parts, toLE_length]⟩
  | vf64 bits =>
    exact ⟨_, rfl, fun tail => by
      simp [parse_primitive_len, PredeterminedLenPrimitive.value_octets_count,
        prim_parts, toLE_length]⟩
  | vbool b =>
    cases b <;>
      exact ⟨_, rfl, fun tail => by
        simp [parse_primitive_len, PredeterminedLenPrimitive.value_octets_count,
          prim_parts]⟩
  | vnull =>
    exact ⟨_, rfl, fun tail => by
      simp [parse_primitive_len, PredeterminedLenPrimitive.value_octets_count,
        prim_parts]⟩
  | vchar_str s =>
    simp only [primWF, Bool.and_eq_true, decide_eq_true_eq] at hv
    obtain ⟨⟨hlen, _⟩, _⟩ := hv
    by_cases h1 : s.length ≤ 255
    · have hs : str_len_info s.length = (.UTF8String1ByteLength, toLE 1 s.length) := by
        simp [str_len_info, h1]
      refine ⟨.Specified (.UTF8String .OneOctet), by simp [prim_parts, hs, TLVType.fromElementType], fun tail => ?_⟩
      simp [prim_parts, hs, parse_primitive_len, SpecifiedLenPrimitive.length_field_size,
        UTF8StrLen.length_field_size, TLVFieldSize.len_octets_count,
        parse_field_size_1 s.length (by omega) (s ++ tail), toLE_length]
    · by_cases h2 : s.length ≤ 65535
      · have hs : str_len_info s.length = (.UTF8String2ByteLength, toLE 2 s.length) := by
          simp [str_len_info, h1, h2]
        refine ⟨.Specified (.UTF8String .TwoOctets), by simp [prim_parts, hs, TLVType.fromElementType], fun tail => ?_⟩
        simp [prim_parts, hs, parse_primitive_len, SpecifiedLenPrimitive.length_field_size,
          UTF8StrLen.length_field_size, TLVFieldSize.len_octets_count,
          parse_field_size_2 s.length (by omega) (s ++ tail), toLE_length]
      · by_cases h3 : s.length ≤ 4294967295
        · have hs : str_len_info s.length = (.UTF8String4ByteLength, toLE 4 s.length) := by
            simp [str_len_info, h1, h2, h3]
          refine ⟨.Specified (.UTF8String .FourOctets), by simp [prim_parts, hs, TLVType.fromElementType],
            fun tail => ?_⟩
          simp [prim_parts, hs, parse_primitive_len, SpecifiedLenPrimitive.length_field_size,
            UTF8StrLen.length_field_size, TLVFieldSize.len_octets_count,
            parse_field_size_4 s.length (by omega) (s ++ tail), toLE_length]
        · have hs : str_len_info s.length = (.UTF8String8ByteLength, toLE 8 s.length) := by
            simp [str_len_info, h1, h2, h3]
          refine ⟨.Specified (.UTF8String .EightOctets), by simp [prim_parts, hs, TLVType.fromElementType],
            fun tail => ?_⟩
          simp [prim_parts, hs, parse_primitive_len, SpecifiedLenPrimitive.length_field_size,
            UTF8StrLen.length_field_size, TLVFieldSize.len_octets_count,
            parse_field_size_8 s.length (by omega) (s ++ tail), toLE_length]
  | vbyte_str s =>
    simp only [primWF, Bool.and_eq_true, decide_eq_true_eq] at hv
    obtain ⟨hlen, _⟩ := hv
    by_cases h1 : s.length ≤ 255
    · have hs : bytes_len_info s.length = (.ByteString1ByteLength, toLE 1 s.length) := by
        simp [bytes_len_info, h1]
      refine ⟨.Specified (.ByteString .OneOctet), by simp [prim_parts, hs, TLVType.fromElementType], fun tail => ?_⟩
      simp [prim_parts, hs, parse_primitive_len, SpecifiedLenPrimitive.length_field_size,
        ByteStrLen.length_field_size, TLVFieldSize.len_octets_count,
        parse_field_size_1 s.length (by omega) (s ++ tail), toLE_length]
    · by_cases h2 : s.length ≤ 65535
      · have hs : bytes_len_info s.length = (.ByteString2ByteLength, toLE 2 s.length) := by
          simp [bytes_len_info, h1, h2]
        refine ⟨.Specified (.ByteString .TwoOctets), by simp [prim_parts, hs, TLVType.fromElementType],
          fun tail => ?_⟩
        simp [prim_parts, hs, parse_primitive_len, SpecifiedLenPrimitive.length_field_size,
          ByteStrLen.length_field_size, TLVFieldSize.len_octets_count,
          parse_field_size_2 s.length (by omega) (s ++ tail), toLE_length]
      · by_cases h3 : s.length ≤ 4294967295
        · have hs : bytes_len_info s.length = (.ByteString4ByteLength, toLE 4 s.length) := by
            simp [bytes_len_info, h1, h2, h3]
          refine ⟨.Specified (.ByteString .FourOctets), by simp [prim_parts, hs, TLVType.fromElementType],
            fun tail => ?_⟩
          simp [prim_parts, hs, parse_primitive_len, SpecifiedLenPrimitive.length_field_size,
            ByteStrLen.length_field_size, TLVFieldSize.len_octets_count,
            parse_field_size_4 s.length (by omega) (s ++ tail), toLE_length]
        · have hs : bytes_len_info s.length = (.ByteString8ByteLength, toLE 8 s.length) := by
            simp [bytes_len_info, h1, h2, h3]
          refine ⟨.Specified (.ByteString .EightOctets), by simp [prim_parts, hs, TLVType.fromElementType],
            fun tail => ?_⟩
          simp [prim_parts, hs, parse_primitive_len, SpecifiedLenPrimitive.length_field_size,
            ByteStrLen.length_field_size, TLVFieldSize.len_octets_count,
            parse_field_size_8 s.length (by omega) (s ++ tail), toLE_length]

theorem skip_eoc (d f : Nat) (rest : List Nat) :
    skip_elements (0x18 :: rest) (d + 1) (f + 1)
      = (skip_elements rest d f).map (fun n => 1 + n) := by
  rw [skip_elements.eq_def]
  simp only []
  rcases hs : skip_elements rest d f with e | n <;>
    simp [parse_tag, TagControl.tryFrom, TLVTag.octets_count, hs, Except.map]

theorem skip_encode_primitive (tag : TLVTag) (et : ElementType)
    (plt : PrimitiveLengthType) (len_bytes val_bytes : List Nat)
    (ht : tagWF tag = true)
    (hty : TLVType.fromElementType et = .ok (.Primitive plt))
    (hpl : ∀ tail : List Nat,
      parse_primitive_len plt (len_bytes ++ (val_bytes ++ tail))
        = .ok (val_bytes ++ tail, len_bytes.length, val_bytes.length)) :
    ∀ (d f : Nat) (rest : List Nat),
      skip_elements (encode_primitive tag et len_bytes val_bytes ++ rest) (d + 1) (f + 1)
        = (skip_elements rest (d + 1) f).map
            (fun n => (encode_primitive tag et len_bytes val_bytes).length + n) := by
  intro d f rest
  obtain ⟨hdiv, hmod⟩ := ctrl_decomp (TagControl.ofTag tag) et.code (code_lt et)
  obtain ⟨h18, hcon⟩ := primitive_code_facts et plt hty
  rw [encode_primitive]
  simp only [List.cons_append, List.append_assoc]
  rw [skip_elements.eq_def]
  simp only []
  rw [hdiv, hmod, parse_tag_encode tag ht (len_bytes ++ (val_bytes ++ rest))]
  simp only []
  rw [if_neg h18, if_neg hcon, tlv_type_code, hty]
  simp only []
  rw [hpl rest]
  simp only []
  have hdrop : (len_bytes ++ (val_bytes ++ rest)).drop
      (len_bytes.length + val_bytes.length) = rest := by
    rw [← List.append_assoc, ← List.length_append]
    exact List.drop_left _ _
  rw [if_pos (by simp only [List.length_append]; omega), hdrop]
  rcases hs : skip_elements rest (d + 1) f with e | n
  · simp only [Except.map]
  · simp only [Except.map]
    congr 1
    simp only [List.length_cons, List.length_append, tag_bytes_length]
    omega

theorem pcbtt_encode_generic (tag : TLVTag) (code : Nat) (hcode : code < 2 ^ 5)
    (tail : List Nat) (ht : tagWF tag = true) :
    (TLVReader.new (((TagControl.ofTag tag).val ||| code)
        :: (tag_bytes tag ++ tail))).parse_control_byte_for_tag_and_type
      = match tlv_type code with
        | .error e => .error e
        | .ok ty => .ok (tail, tag, ty) := by
  obtain ⟨hdiv, hmod⟩ := ctrl_decomp (TagControl.ofTag tag) code hcode
  simp only [TLVReader.parse_control_byte_for_tag_and_type, TLVReader.parse_control_byte,
    TLVReader.new, TLVReader.current_element, List.drop_zero, Nat.add_zero, hdiv, hmod,
    parse_tag_encode tag ht]

mutual

theorem skip_encode_element (e : Element) (he : elementWF e = true) :
    ∀ (d f : Nat) (rest : List Nat),
      skip_elements (encodeElement e ++ rest) (d + 1) (f + stepsElement e)
        = (skip_elements rest (d + 1) f).map (fun n => (encodeElement e).length + n) := by
  cases e with
  | prim tag v =>
    intro d f rest
    simp only [elementWF, Bool.and_eq_true] at he
    obtain ⟨ht, hv⟩ := he
    obtain ⟨plt, hty, hpl⟩ := prim_parts_spec v hv
    rw [encodeElement, stepsElement, prim_parts_encode tag v]
    exact skip_encode_primitive tag _ plt _ _ ht hty (fun tail => hpl tail) d f rest
  | container tag k ms =>
    intro d f rest
    simp only [elementWF, Bool.and_eq_true] at he
    obtain ⟨ht, hms⟩ := he
    obtain ⟨hdiv, hmod⟩ := ctrl_decomp (TagControl.ofTag tag) k.code (ccode_lt k)
    rw [encodeElement, stepsElement]
    have hf : f + (2 + stepsElements ms) = (f + 1 + stepsElements ms) + 1 := by omega
    rw [hf]
    simp only [List.cons_append, List.append_assoc, List.nil_append]
    rw [skip_elements.eq_def]
    simp only []
    rw [hdiv, hmod, parse_tag_encode tag ht (encodeElements ms ++ (0x18 :: rest))]
    simp only []
    rw [if_neg (ccode_ne18 k), if_pos (ccode_or k)]
    rw [show d + 2 = d + 1 + 1 from rfl]
    rw [skip_encode_elements ms hms (d + 1) (f + 1) (0x18 :: rest)]
    rw [skip_eoc (d + 1) f rest]
    rcases hs : skip_elements rest (d + 1) f with e2 | n
    · simp only [Except.map]
    · simp only [Except.map]
      congr 1
      simp only [List.length_cons, List.length_append, List.length_nil, tag_bytes_length]
      omega

theorem skip_encode_elements (ms : Elements) (hm : elementsWF ms = true) :
    ∀ (d f : Nat) (rest : List Nat),
      skip_elements (encodeElements ms ++ rest) (d + 1) (f + stepsElements ms)
        = (skip_elements rest (d + 1) f).map (fun n => (encodeElements ms).length + n) := by
  cases ms with
  | nil =>
    intro d f rest
    rw [encodeElements, stepsElements]
    simp only [List.nil_append, Nat.add_zero, List.length_nil]
    rcases hs : skip_elements rest (d + 1) f with e | n <;> simp [Except.map]
  | cons e es =>
    intro d f rest
    simp only [elementsWF, Bool.and_eq_true] at hm
    obtain ⟨he, hes⟩ := hm
    rw [encodeElements, stepsElements]
    have hf : f + (stepsElement e + stepsElements es)
        = (f + stepsElements es) + stepsElement e := by omega
    rw [hf]
    simp only [List.append_assoc]
    rw [skip_encode_element e he d (f + stepsElements es) (encodeElements es ++ rest)]
    rw [skip_encode_elements es hes d f rest]
    rcases hs : skip_elements rest (d + 1) f with e2 | n
    · simp only [Except.map]
    · simp only [Except.map]
      congr 1
      simp only [List.length_append]
      omega

end

theorem skip_elements_mono (f : Nat) :
    ∀ (bytes : List Nat) (d n f' : Nat), skip_elements bytes d f = .ok n → f ≤ f' →
      skip_elements bytes d f' = .ok n := by
  induction f with
  | zero =>
    intro bytes d n f' h hle
    cases d with
    | zero =>
      simp [skip_elements] at h ⊢
      exact h
    | succ d => simp [skip_elements] at h
  | succ f ih =>
    intro bytes d n f' h hle
    cases d with
    | zero =>
      simp [skip_elements] at h ⊢
      exact h
    | succ d =>
      obtain ⟨f'', rfl⟩ : ∃ f'', f' = f'' + 1 := ⟨f' - 1, by omega⟩
      cases bytes with
      | nil => simp [skip_elements] at h
      | cons b rest =>
        rw [skip_elements.eq_def] at h ⊢
        try simp only [] at h ⊢
        rcases hpt : parse_tag (b / 2 ^ 5 * 2 ^ 5) rest with e1 | ⟨rb, tag⟩ <;>
          rw [hpt] at h <;> try simp only [] at h ⊢
        · exact Except.noConfusion h
        · by_cases h18 : b % 2 ^ 5 = 0x18
          · rw [if_pos h18] at h ⊢
            rcases hs : skip_elements rb d f with e2 | m <;> rw [hs] at h <;>
              try simp only [] at h
            · exact Except.noConfusion h
            · rw [ih rb d m f'' hs (by omega)]
              simp only []
              exact h
          · rw [if_neg h18] at h ⊢
            by_cases hc : b % 2 ^ 5 = 0x15 ∨ b % 2 ^ 5 = 0x16 ∨ b % 2 ^ 5 = 0x17
            · rw [if_pos hc] at h ⊢
              rcases hs : skip_elements rb (d + 2) f with e2 | m <;> rw [hs] at h <;>
                try simp only [] at h
              · exact Except.noConfusion h
              · rw [ih rb (d + 2) m f'' hs (by omega)]
                simp only []
                exact h
            · rw [if_neg hc] at h ⊢
              rcases htt : tlv_type (b % 2 ^ 5) with e2 | ty <;> rw [htt] at h <;>
                try simp only [] at h ⊢
              · exact Except.noConfusion h
              · cases ty with
                | Container c => exact Except.noConfusion h
                | Primitive plt =>
                  try simp only [] at h ⊢
                  rcases hpl : parse_primitive_len plt rb with e3 | ⟨rs, lo, vo⟩ <;>
                    rw [hpl] at h <;> try simp only [] at h ⊢
                  · exact Except.noConfusion h
                  · by_cases hlen : lo + vo ≤ rb.length
                    · rw [if_pos hlen] at h ⊢
                      rcases hs : skip_elements (rb.drop (lo + vo)) (d + 1) f
                          with e4 | m <;> rw [hs] at h <;> try simp only [] at h
                      · exact Except.noConfusion h
                      · rw [ih _ _ m f'' hs (by omega)]
                        simp only []
                        exact h
                    · rw [if_neg hlen] at h ⊢
                      exact Except.noConfusion h

mutual

theorem stepsElement_le (e : Element) : stepsElement e ≤ (encodeElement e).length := by
  cases e with
  | prim tag v =>
    rw [stepsElement, encodeElement, prim_parts_encode tag v, encode_primitive]
    simp
  | container tag k ms =>
    rw [stepsElement, encodeElement]
    have hle := stepsElements_le ms
    simp only [List.length_cons, List.length_append, List.length_nil]
    omega

theorem stepsElements_le (ms : Elements) :
    stepsElements ms ≤ (encodeElements ms).length := by
  cases ms with
  | nil =>
    rw [stepsElements, encodeElements]
    exact Nat.zero_le _
  | cons e es =>
    rw [stepsElements, encodeElements]
    have h1 := stepsElement_le e
    have h2 := stepsElements_le es
    simp only [List.length_append]
    omega

end

/-- C2: for a buffer whose element at the cursor is a container (Structure,
Array, or List), `next()` advances the cursor past the entire container: its
value length is computed by the spec-mandated forward scan with a
nesting-depth counter (incremented on Structure/Array/List codes,
decremented on EndOfContainer, until it returns to zero), leaving the cursor
immediately after the matching end-of-container marker; when the container
is the final element the computed next position is exactly the buffer end
and `next()` signals `EndOfTLV`. -/
theorem c2_next_skips_container (tag : TLVTag) (k : ContainerType) (ms : Elements)
    (rest : List Nat) (ht : tagWF tag = true) (hms : elementsWF ms = true) :
    (rest ≠ [] →
      (TLVReader.new (encodeElement (.container tag k ms) ++ rest)).next
        = .ok { payload := encodeElement (.container tag k ms) ++ rest,
                len_read := (encodeElement (.container tag k ms)).length }) ∧
    (rest = [] →
      (TLVReader.new (encodeElement (.container tag k ms) ++ rest)).next
        = .error .EndOfTLV) := by
  have hbuf : encodeElement (.container tag k ms) ++ rest
      = ((TagControl.ofTag tag).val ||| k.code)
          :: (tag_bytes tag ++ (encodeElements ms ++ (0x18 :: rest))) := by
    rw [encodeElement]
    simp [List.append_assoc]
  have hpc : (TLVReader.new
        (encodeElement (.container tag k ms) ++ rest)).parse_control_byte_for_tag_and_type
      = .ok (encodeElements ms ++ (0x18 :: rest), tag, .Container k) := by
    rw [hbuf, pcbtt_encode_generic tag k.code (ccode_lt k)
      (encodeElements ms ++ (0x18 :: rest)) ht, tlv_type_ccode k]
  have hskip1 : skip_elements (encodeElements ms ++ (0x18 :: rest)) 1
      (1 + stepsElements ms) = .ok ((encodeElements ms).length + 1) := by
    have h1 := skip_encode_elements ms hms 0 1 (0x18 :: rest)
    have h2 := skip_eoc 0 0 rest
    simp only [Nat.zero_add] at h1 h2
    rw [h1, h2]
    have h3 : skip_elements rest 0 0 = .ok 0 := rfl
    rw [h3]
    simp [Except.map]
  have hsteps : 1 + stepsElements ms ≤ (encodeElements ms ++ (0x18 :: rest)).length + 1 := by
    have hle := stepsElements_le ms
    simp only [List.length_append, List.length_cons]
    omega
  have hskip : skip_elements (encodeElements ms ++ (0x18 :: rest)) 1
      ((encodeElements ms ++ (0x18 :: rest)).length + 1)
      = .ok ((encodeElements ms).length + 1) :=
    skip_elements_mono _ _ _ _ _ hskip1 hsteps
  have hencLen : (encodeElement (.container tag k ms)).length
      = (encodeElements ms).length + 1 + tag.octets_count + 1 := by
    rw [encodeElement]
    simp only [List.length_cons, List.length_append, List.length_nil, tag_bytes_length]
    omega
  constructor
  · intro hrest
    have hrl : 0 < rest.length := List.length_pos.mpr hrest
    rw [TLVReader.next, hpc]
    simp only []
    rw [hskip]
    simp only [TLVReader.new]
    rw [if_neg (by simp only [List.length_append, hencLen]; omega)]
    rw [if_neg (by simp only [List.length_append, hencLen]; omega)]
    simp only [Except.ok.injEq, TLVReader.mk.injEq]
    refine ⟨trivial, ?_⟩
    omega
  · intro hrest
    subst hrest
    rw [TLVReader.next, hpc]
    simp only []
    rw [hskip]
    simp only [TLVReader.new]
    rw [if_neg (by simp only [List.length_append, hencLen, List.length_nil]; omega)]
    rw [if_pos (by simp only [List.length_append, hencLen, List.length_nil]; omega)]

/-- Witness for C2: the Structure from the repository's container example
(`15 24 01 2A 29 02 18`) followed by a Null element; `next()` advances the
cursor to offset 7, immediately after the end-of-container marker. -/
theorem c2_next_skips_container_witness :
    (TLVReader.new (encodeElement (.container .Anonymous .Structure
        (.cons (.prim (.ContextSpecific 1) (.vu8 42))
          (.cons (.prim (.ContextSpecific 2) (.vbool true)) .nil))) ++ [0x14])).next
      = .ok { payload := encodeElement (.container .Anonymous .Structure
                (.cons (.prim (.ContextSpecific 1) (.vu8 42))
                  (.cons (.prim (.ContextSpecific 2) (.vbool true)) .nil))) ++ [0x14],
              len_read := (encodeElement (.container .Anonymous .Structure
                (.cons (.prim (.ContextSpecific 1) (.vu8 42))
                  (.cons (.prim (.ContextSpecific 2) (.vbool true)) .nil)))).length } :=
  (c2_next_skips_container .Anonymous .Structure
    (.cons (.prim (.ContextSpecific 1) (.vu8 42))
      (.cons (.prim (.ContextSpecific 2) (.vbool true)) .nil)) [0x14]
    (by decide) (by decide)).1 (by decide)

theorem next_formula (r : TLVReader) (rb rb2 : List Nat) (tag : TLVTag)
    (plt : PrimitiveLengthType) (lo vo : Nat)
    (h1 : r.parse_control_byte_for_tag_and_type = .ok (rb, tag, .Primitive plt))
    (h2 : parse_primitive_len plt rb = .ok (rb2, lo, vo)) :
    r.next = (if r.len_read + (lo + vo + tag.octets_count + 1) > r.payload.length
        then .error .UnderRun
        else if r.len_read + (lo + vo + tag.octets_count + 1) = r.payload.length
        then .error .EndOfTLV
        else .ok { r with len_read := r.len_read + (lo + vo + tag.octets_count + 1) }) := by
  rw [TLVReader.next, h1]
  simp [h2]

theorem next_ppl_error (r : TLVReader) (rb : List Nat) (tag : TLVTag)
    (plt : PrimitiveLengthType) (e : TLVError)
    (h1 : r.parse_control_byte_for_tag_and_type = .ok (rb, tag, .Primitive plt))
    (h2 : parse_primitive_len plt rb = .error e) : r.next = .error e := by
  rw [TLVReader.next, h1]
  simp [h2]

theorem next_pcbtt_error (r : TLVReader) (e : TLVError)
    (h : r.parse_control_byte_for_tag_and_type = .error e) : r.next = .error e := by
  rw [TLVReader.next, h]

theorem read_kind_pcbtt_error (r : TLVReader) (k : AccessorKind) (e : TLVError)
    (h : r.parse_control_byte_for_tag_and_type = .error e) : read_kind r k = .error e := by
  cases k <;>
    simp [read_kind, TLVReader.read_u8, TLVReader.read_u16, TLVReader.read_u32,
      TLVReader.read_u64, TLVReader.read_i8, TLVReader.read_i16, TLVReader.read_i32,
      TLVReader.read_i64, TLVReader.read_f32, TLVReader.read_f64, TLVReader.read_bool,
      TLVReader.read_null, TLVReader.read_char_str, TLVReader.read_byte_str, h, Except.map]

theorem except_map_error {α β : Type} (x : Except TLVError α) (f : α → β) (e : TLVError)
    (h : x = .error e) : x.map f = .error e := by
  rw [h]
  rfl

theorem parse_u8_short (bytes : List Nat) (h : bytes.length < 1) :
    parse_u8 bytes = .error .ParseError := by
  unfold parse_u8
  split
  all_goals first
  | rfl
  | (simp only [List.length_cons] at h; omega)

theorem parse_u16_short (bytes : List Nat) (h : bytes.length < 2) :
    parse_u16 bytes = .error .ParseError := by
  unfold parse_u16
  split
  all_goals first
  | rfl
  | (simp only [List.length_cons] at h; omega)

theorem parse_u32_short (bytes : List Nat) (h : bytes.length < 4) :
    parse_u32 bytes = .error .ParseError := by
  unfold parse_u32
  split
  all_goals first
  | rfl
  | (simp only [List.length_cons] at h; omega)

theorem parse_u64_short (bytes : List Nat) (h : bytes.length < 8) :
    parse_u64 bytes = .error .ParseError := by
  unfold parse_u64
  split
  all_goals first
  | rfl
  | (simp only [List.length_cons] at h; omega)

theorem parse_i8_short (bytes : List Nat) (h : bytes.length < 1) :
    parse_i8 bytes = .error .ParseError := by
  rw [parse_i8, parse_u8_short bytes h]

theorem parse_i16_short (bytes : List Nat) (h : bytes.length < 2) :
    parse_i16 bytes = .error .ParseError := by
  rw [parse_i16, parse_u16_short bytes h]

theorem parse_i32_short (bytes : List Nat) (h : bytes.length < 4) :
    parse_i32 bytes = .error .ParseError := by
  rw [parse_i32, parse_u32_short bytes h]

theorem parse_i64_short (bytes : List Nat) (h : bytes.length < 8) :
    parse_i64 bytes = .error .ParseError := by
  rw [parse_i64, parse_u64_short bytes h]

theorem dropLast_cons_ne (a : Nat) (l : List Nat) (h : l ≠ []) :
    (a :: l).dropLast = a :: l.dropLast := by
  cases l with
  | nil => exact absurd rfl h
  | cons b t => rfl

theorem dropLast_append_ne (xs ys : List Nat) (h : ys ≠ []) :
    (xs ++ ys).dropLast = xs ++ ys.dropLast := by
  induction xs with
  | nil => rfl
  | cons a t ih =>
    rw [List.cons_append, dropLast_cons_ne a (t ++ ys)
      (fun hc => h (List.append_eq_nil.mp hc).2), ih, List.cons_append]

theorem toLE_ne_nil (w n : Nat) (h : 0 < w) : toLE w n ≠ [] := by
  cases w with
  | zero => omega
  | succ w => simp [toLE]

theorem dropLast_encode (tag : TLVTag) (et : ElementType) (lenB valB : List Nat)
    (hval : valB ≠ []) :
    (encode_primitive tag et lenB valB).dropLast
      = encode_primitive tag et lenB valB.dropLast := by
  rw [encode_primitive, encode_primitive]
  rw [dropLast_cons_ne _ _ (fun hc => hval (List.append_eq_nil.mp hc).2)]
  rw [dropLast_append_ne _ _ hval]

theorem tag_bytes_ne_nil (tag : TLVTag) (h : tag ≠ .Anonymous) : tag_bytes tag ≠ [] := by
  cases tag with
  | Anonymous => exact absurd rfl h
  | ContextSpecific n => simp [tag_bytes, toLE]
  | CommonProfile p => cases p <;> simp [tag_bytes, toLE]
  | ImplicitProfile p => cases p <;> simp [tag_bytes, toLE]
  | FullyQualifiedProfile p => cases p <;> simp [tag_bytes, toLE]

theorem parse_tag_dropLast (tag : TLVTag) (hne : tag ≠ .Anonymous)
    (ht : tagWF tag = true) :
    parse_tag (TagControl.ofTag tag).val ((tag_bytes tag).dropLast)
      = .error .ParseError := by
  cases tag with
  | Anonymous => exact absurd rfl hne
  | ContextSpecific n =>
    have hshort : parse_u8 ((toLE 1 n).dropLast) = .error .ParseError :=
      parse_u8_short _ (by simp [List.length_dropLast, toLE_length])
    simp [parse_tag, TagControl.ofTag, TagControl.val, TagControl.tryFrom, tag_bytes, hshort]
  | CommonProfile p =>
    cases p with
    | TwoOctets n =>
      have hshort : parse_u16 ((toLE 2 n).dropLast) = .error .ParseError :=
        parse_u16_short _ (by simp [List.length_dropLast, toLE_length])
      simp [parse_tag, TagControl.ofTag, TagControl.val, TagControl.tryFrom, tag_bytes,
        hshort]
    | FourOctets n =>
      have hshort : parse_u32 ((toLE 4 n).dropLast) = .error .ParseError :=
        parse_u32_short _ (by simp [List.length_dropLast, toLE_length])
      simp [parse_tag, TagControl.ofTag, TagControl.val, TagControl.tryFrom, tag_bytes,
        hshort]
  | ImplicitProfile p =>
    cases p with
    | TwoOctets n =>
      have hshort : parse_u16 ((toLE 2 n).dropLast) = .error .ParseError :=
        parse_u16_short _ (by simp [List.length_dropLast, toLE_length])
      simp [parse_tag, TagControl.ofTag, TagControl.val, TagControl.tryFrom, tag_bytes,
        hshort]
    | FourOctets n =>
      have hshort : parse_u32 ((toLE 4 n).dropLast) = .error .ParseError :=
        parse_u32_short _ (by simp [List.length_dropLast, toLE_length])
      simp [parse_tag, TagControl.ofTag, TagControl.val, TagControl.tryFrom, tag_bytes,
        hshort]
  | FullyQualifiedProfile p =>
    cases p with
    | SixOctets v p n =>
      simp only [tagWF, Bool.and_eq_true, decide_eq_true_eq] at ht
      obtain ⟨⟨hv, hp⟩, hn⟩ := ht
      have hd : (tag_bytes (.FullyQualifiedProfile (.SixOctets v p n))).dropLast
          = toLE 2 v ++ (toLE 2 p ++ (toLE 2 n).dropLast) := by
        rw [tag_bytes, dropLast_append_ne _ _ (toLE_ne_nil 2 n (by omega)),
          List.append_assoc]
      have hshort : parse_u16 ((toLE 2 n).dropLast) = .error .ParseError :=
        parse_u16_short _ (by simp [List.length_dropLast, toLE_length])
      rw [hd]
      simp [parse_tag, TagControl.ofTag, TagControl.val, TagControl.tryFrom,
        parse_u16_toLE v hv, parse_u16_toLE p hp, hshort]
    | EightOctets v p n =>
      simp only [tagWF, Bool.and_eq_true, decide_eq_true_eq] at ht
      obtain ⟨⟨hv, hp⟩, hn⟩ := ht
      have hd : (tag_bytes (.FullyQualifiedProfile (.EightOctets v p n))).dropLast
          = toLE 2 v ++ (toLE 2 p ++ (toLE 4 n).dropLast) := by
        rw [tag_bytes, dropLast_append_ne _ _ (toLE_ne_nil 4 n (by omega)),
          List.append_assoc]
      have hshort : parse_u32 ((toLE 4 n).dropLast) = .error .ParseError :=
        parse_u32_short _ (by simp [List.length_dropLast, toLE_length])
      rw [hd]
      simp [parse_tag, TagControl.ofTag, TagControl.val, TagControl.tryFrom,
        parse_u16_toLE v hv, parse_u16_toLE p hp, hshort]

theorem trunc_empty_pcbtt (tag : TLVTag) (et : ElementType) (ht : tagWF tag = true) :
    (TLVReader.new
        ((encode_primitive tag et [] []).dropLast)).parse_control_byte_for_tag_and_type
      = .error .ParseError := by
  by_cases htag : tag = .Anonymous
  · subst htag
    rfl
  · obtain ⟨hdiv, hmod⟩ := ctrl_decomp (TagControl.ofTag tag) et.code (code_lt et)
    have henc : (encode_primitive tag et [] []).dropLast
        = ((TagControl.ofTag tag).val ||| et.code) :: (tag_bytes tag).dropLast := by
      rw [encode_primitive]
      simp only [List.append_nil]
      exact dropLast_cons_ne _ _ (tag_bytes_ne_nil tag htag)
    have hdiv32 : ((TagControl.ofTag tag).val ||| et.code) / 32 * 32
        = (TagControl.ofTag tag).val := hdiv
    rw [henc]
    simp [TLVReader.parse_control_byte_for_tag_and_type, TLVReader.parse_control_byte,
      TLVReader.new, TLVReader.current_element, hdiv32,
      parse_tag_dropLast tag htag ht]

theorem toLEsigned_ne_nil (w : Nat) (v : Int) (h : 0 < w) : toLEsigned w v ≠ [] := by
  rw [toLEsigned]
  exact toLE_ne_nil w _ h

theorem trunc_pcbtt (tag : TLVTag) (et : ElementType) (lenB valB : List Nat) (ty : TLVType)
    (htag : tagWF tag = true) (hne : valB ≠ [])
    (hty : TLVType.fromElementType et = .ok ty) :
    (TLVReader.new
        ((encode_primitive tag et lenB valB).dropLast)).parse_control_byte_for_tag_and_type
      = .ok (lenB ++ valB.dropLast, tag, ty) := by
  rw [dropLast_encode tag et lenB valB hne]
  rw [pcbtt_encode tag et lenB valB.dropLast htag, hty]

theorem trunc_pred_next (tag : TLVTag) (et : ElementType) (p : PredeterminedLenPrimitive)
    (valB : List Nat) (htag : tagWF tag = true) (hne : valB ≠ [])
    (hty : TLVType.fromElementType et = .ok (.Primitive (.Predetermined p)))
    (hvo : valB.length = p.value_octets_count) :
    (TLVReader.new ((encode_primitive tag et [] valB).dropLast)).next
      = .error .UnderRun := by
  have hp := trunc_pcbtt tag et [] valB _ htag hne hty
  have hppl : parse_primitive_len (.Predetermined p) ([] ++ valB.dropLast)
      = .ok ([] ++ valB.dropLast, 0, p.value_octets_count) := rfl
  have hlen : ((encode_primitive tag et [] valB).dropLast).length
      = tag.octets_count + valB.length := by
    simp only [encode_primitive, List.length_dropLast, List.length_cons, List.length_append,
      List.length_nil, tag_bytes_length]
    omega
  rw [next_formula _ _ _ tag _ 0 p.value_octets_count hp hppl]
  split
  · rfl
  · rename_i hcond
    exfalso
    apply hcond
    simp only [TLVReader.new, hlen]
    omega

theorem trunc_spec_next (tag : TLVTag) (et : ElementType) (sp : SpecifiedLenPrimitive)
    (lenB s : List Nat) (htag : tagWF tag = true) (hs : s ≠ [])
    (hty : TLVType.fromElementType et = .ok (.Primitive (.Specified sp)))
    (hpfs : parse_field_size sp.length_field_size (lenB ++ s.dropLast)
        = .ok (s.dropLast, s.length))
    (hlo : sp.length_field_size.len_octets_count = lenB.length) :
    (TLVReader.new ((encode_primitive tag et lenB s).dropLast)).next
      = .error .UnderRun := by
  have hp := trunc_pcbtt tag et lenB s _ htag hs hty
  have hppl : parse_primitive_len (.Specified sp) (lenB ++ s.dropLast)
      = .ok (s.dropLast, lenB.length, s.length) := by
    simp [parse_primitive_len, hpfs, hlo]
  have hlen : ((encode_primitive tag et lenB s).dropLast).length
      = tag.octets_count + lenB.length + s.length := by
    simp only [encode_primitive, List.length_dropLast, List.length_cons, List.length_append,
      tag_bytes_length]
    omega
  rw [next_formula _ _ _ tag _ lenB.length s.length hp hppl]
  split
  · rfl
  · rename_i hcond
    exfalso
    apply hcond
    simp only [TLVReader.new, hlen]
    omega

theorem trunc_char_str_read (tag : TLVTag) (et : ElementType) (u : UTF8StrLen)
    (lenB s : List Nat) (htag : tagWF tag = true) (hs : s ≠ [])
    (hty : TLVType.fromElementType et = .ok (.Primitive (.Specified (.UTF8String u))))
    (hpfs : parse_field_size u.length_field_size (lenB ++ s.dropLast)
        = .ok (s.dropLast, s.length)) :
    (TLVReader.new ((encode_primitive tag et lenB s).dropLast)).read_char_str
      = .error .UnderRun := by
  have hpos : 0 < s.length := by
    cases s with
    | nil => exact absurd rfl hs
    | cons a t => simp
  have hlt : s.dropLast.length < s.length := by
    rw [List.length_dropLast]
    omega
  have hlt2 : s.length - 1 < s.length := by omega
  simp [TLVReader.read_char_str, trunc_pcbtt tag et lenB s _ htag hs hty, hpfs, hlt, hlt2]

theorem trunc_byte_str_read (tag : TLVTag) (et : ElementType) (u : ByteStrLen)
    (lenB s : List Nat) (htag : tagWF tag = true) (hs : s ≠ [])
    (hty : TLVType.fromElementType et = .ok (.Primitive (.Specified (.ByteString u))))
    (hpfs : parse_field_size u.length_field_size (lenB ++ s.dropLast)
        = .ok (s.dropLast, s.length)) :
    (TLVReader.new ((encode_primitive tag et lenB s).dropLast)).read_byte_str
      = .error .UnderRun := by
  have hpos : 0 < s.length := by
    cases s with
    | nil => exact absurd rfl hs
    | cons a t => simp
  have hlt : s.dropLast.length < s.length := by
    rw [List.length_dropLast]
    omega
  have hlt2 : s.length - 1 < s.length := by omega
  simp [TLVReader.read_byte_str, trunc_pcbtt tag et lenB s _ htag hs hty, hpfs, hlt, hlt2]

/-- C3 (corrected): decoding a Writer encoding truncated by its last byte
always fails — for every well-formed primitive value and tag, both the
matching typed accessor and `next()` on the truncated buffer return
`UnderRun` or `ParseError`, never success; but the error is not always
`UnderRun` as claimed: cutting a fixed-width value or a tag byte surfaces as
`ParseError` (nom parse exhaustion in `reader.rs`), while `UnderRun` arises
when a declared string length or the length field itself is cut. -/
theorem c3_truncation_fails (tag : TLVTag) (v : PrimValue)
    (htag : tagWF tag = true) (hv : primWF v = true) :
    (read_kind (TLVReader.new ((encode_value_with_tag tag v).dropLast)) (kind_of v)
        = .error .UnderRun ∨
      read_kind (TLVReader.new ((encode_value_with_tag tag v).dropLast)) (kind_of v)
        = .error .ParseError) ∧
    ((TLVReader.new ((encode_value_with_tag tag v).dropLast)).next = .error .UnderRun ∨
      (TLVReader.new ((encode_value_with_tag tag v).dropLast)).next
        = .error .ParseError) := by
  cases v with
  | vu8 n =>
    have he : encode_value_with_tag tag (.vu8 n)
        = encode_primitive tag .UInt8 [] (toLE 1 n) := rfl
    rw [he]
    have hne : toLE 1 n ≠ [] := toLE_ne_nil 1 n (by omega)
    refine ⟨.inr ?_, .inl ?_⟩
    · simp only [kind_of, read_kind]
      apply except_map_error
      simp [TLVReader.read_u8, trunc_pcbtt tag .UInt8 [] (toLE 1 n) _ htag hne rfl,
        parse_u8_short ((toLE 1 n).dropLast)
          (by simp only [List.length_dropLast, toLE_length]; omega)]
    · exact trunc_pred_next tag .UInt8 (.UnsignedInteger .UInt8) (toLE 1 n) htag hne rfl
        (by rw [toLE_length]; rfl)
  | vu16 n =>
    have he : encode_value_with_tag tag (.vu16 n)
        = encode_primitive tag .UInt16 [] (toLE 2 n) := rfl
    rw [he]
    have hne : toLE 2 n ≠ [] := toLE_ne_nil 2 n (by omega)
    refine ⟨.inr ?_, .inl ?_⟩
    · simp only [kind_of, read_kind]
      apply except_map_error
      simp [TLVReader.read_u16, trunc_pcbtt tag .UInt16 [] (toLE 2 n) _ htag hne rfl,
        parse_u16_short ((toLE 2 n).dropLast)
          (by simp only [List.length_dropLast, toLE_length]; omega)]
    · exact trunc_pred_next tag .UInt16 (.UnsignedInteger .UInt16) (toLE 2 n) htag hne rfl
        (by rw [toLE_length]; rfl)
  | vu32 n =>
    have he : encode_value_with_tag tag (.vu32 n)
        = encode_primitive tag .UInt32 [] (toLE 4 n) := rfl
    rw [he]
    have hne : toLE 4 n ≠ [] := toLE_ne_nil 4 n (by omega)
    refine ⟨.inr ?_, .inl ?_⟩
    · simp only [kind_of, read_kind]
      apply except_map_error
      simp [TLVReader.read_u32, trunc_pcbtt tag .UInt32 [] (toLE 4 n) _ htag hne rfl,
        parse_u32_short ((toLE 4 n).dropLast)
          (by simp only [List.length_dropLast, toLE_length]; omega)]
    · exact trunc_pred_next tag .UInt32 (.UnsignedInteger .UInt32) (toLE 4 n) htag hne rfl
        (by rw [toLE_length]; rfl)
  | vu64 n =>
    have he : encode_value_with_tag tag (.vu64 n)
        = encode_primitive tag .UInt64 [] (toLE 8 n) := rfl
    rw [he]
    have hne : toLE 8 n ≠ [] := toLE_ne_nil 8 n (by omega)
    refine ⟨.inr ?_, .inl ?_⟩
    · simp only [kind_of, read_kind]
      apply except_map_error
      simp [TLVReader.read_u64, trunc_pcbtt tag .UInt64 [] (toLE 8 n) _ htag hne rfl,
        parse_u64_short ((toLE 8 n).dropLast)
          (by simp only [List.length_dropLast, toLE_length]; omega)]
    · exact trunc_pred_next tag .UInt64 (.UnsignedInteger .UInt64) (toLE 8 n) htag hne rfl
        (by rw [toLE_length]; rfl)
  | vi8 n =>
    have he : encode_value_with_tag tag (.vi8 n)
        = encode_primitive tag .Int8 [] (toLEsigned 1 n) := rfl
    rw [he]
    have hne : toLEsigned 1 n ≠ [] := toLEsigned_ne_nil 1 n (by omega)
    refine ⟨.inr ?_, .inl ?_⟩
    · simp only [kind_of, read_kind]
      apply except_map_error
      simp [TLVReader.read_i8, trunc_pcbtt tag .Int8 [] (toLEsigned 1 n) _ htag hne rfl,
        parse_i8_short ((toLEsigned 1 n).dropLast)
          (by simp only [List.length_dropLast, toLEsigned_length]; omega)]
    · exact trunc_pred_next tag .Int8 (.SignedInteger .Int8) (toLEsigned 1 n) htag hne rfl
        (by rw [toLEsigned_length]; rfl)
  | vi16 n =>
    have he : encode_value_with_tag tag (.vi16 n)
        = encode_primitive tag .Int16 [] (toLEsigned 2 n) := rfl
    rw [he]
    have hne : toLEsigned 2 n ≠ [] := toLEsigned_ne_nil 2 n (by omega)
    refine ⟨.inr ?_, .inl ?_⟩
    · simp only [kind_of, read_kind]
      apply except_map_error
      simp [TLVReader.read_i16, trunc_pcbtt tag .Int16 [] (toLEsigned 2 n) _ htag hne rfl,
        parse_i16_short ((toLEsigned 2 n).dropLast)
          (by simp only [List.length_dropLast, toLEsigned_length]; omega)]
    · exact trunc_pred_next tag .Int16 (.SignedInteger .Int16) (toLEsigned 2 n) htag hne rfl
        (by rw [toLEsigned_length]; rfl)
  | vi32 n =>
    have he : encode_value_with_tag tag (.vi32 n)
        = encode_primitive tag .Int32 [] (toLEsigned 4 n) := rfl
    rw [he]
    have hne : toLEsigned 4 n ≠ [] := toLEsigned_ne_nil 4 n (by omega)
    refine ⟨.inr ?_, .inl ?_⟩
    · simp only [kind_of, read_kind]
      apply except_map_error
      simp [TLVReader.read_i32, trunc_pcbtt tag .Int32 [] (toLEsigned 4 n) _ htag hne rfl,
        parse_i32_short ((toLEsigned 4 n).dropLast)
          (by simp only [List.length_dropLast, toLEsigned_length]; omega)]
    · exact trunc_pred_next tag .Int32 (.SignedInteger .Int32) (toLEsigned 4 n) htag hne rfl
        (by rw [toLEsigned_length]; rfl)
  | vi64 n =>
    have he : encode_value_with_tag tag (.vi64 n)
        = encode_primitive tag .Int64 [] (toLEsigned 8 n) := rfl
    rw [he]
    have hne : toLEsigned 8 n ≠ [] := toLEsigned_ne_nil 8 n (by omega)
    refine ⟨.inr ?_, .inl ?_⟩
    · simp only [kind_of, read_kind]
      apply except_map_error
      simp [TLVReader.read_i64, trunc_pcbtt tag .Int64 [] (toLEsigned 8 n) _ htag hne rfl,
        parse_i64_short ((toLEsigned 8 n).dropLast)
          (by simp only [List.length_dropLast, toLEsigned_length]; omega)]
    · exact trunc_pred_next tag .Int64 (.SignedInteger .Int64) (toLEsigned 8 n) htag hne rfl
        (by rw [toLEsigned_length]; rfl)
  | vf32 bits =>
    have he : encode_value_with_tag tag (.vf32 bits)
        = encode_primitive tag .FloatingPointNumber32 [] (toLE 4 bits) := rfl
    rw [he]
    have hne : toLE 4 bits ≠ [] := toLE_ne_nil 4 bits (by omega)
    refine ⟨.inr ?_, .inl ?_⟩
    · simp only [kind_of, read_kind]
      apply except_map_error
      simp [TLVReader.read_f32, parse_f32bits,
        trunc_pcbtt tag .FloatingPointNumber32 [] (toLE 4 bits) _ htag hne rfl,
        parse_u32_short ((toLE 4 bits).dropLast)
          (by simp only [List.length_dropLast, toLE_length]; omega)]
    · exact trunc_pred_next tag .FloatingPointNumber32
        (.FloatingPointNumber .FloatingPointNumber32) (toLE 4 bits) htag hne rfl
        (by rw [toLE_length]; rfl)
  | vf64 bits =>
    have he : encode_value_with_tag tag (.vf64 bits)
        = encode_primitive tag .FloatingPointNumber64 [] (toLE 8 bits) := rfl
    rw [he]
    have hne : toLE 8 bits ≠ [] := toLE_ne_nil 8 bits (by omega)
    refine ⟨.inr ?_, .inl ?_⟩
    · simp only [kind_of, read_kind]
      apply except_map_error
      simp [TLVReader.read_f64, parse_f64bits,
        trunc_pcbtt tag .FloatingPointNumber64 [] (toLE 8 bits) _ htag hne rfl,
        parse_u64_short ((toLE 8 bits).dropLast)
          (by simp only [List.length_dropLast, toLE_length]; omega)]
    · exact trunc_pred_next tag .FloatingPointNumber64
        (.FloatingPointNumber .FloatingPointNumber64) (toLE 8 bits) htag hne rfl
        (by rw [toLE_length]; rfl)
  | vbool b =>
    have he : encode_value_with_tag tag (.vbool b)
        = encode_primitive tag
          (if b then ElementType.BooleanTrue else ElementType.BooleanFalse) [] [] := rfl
    rw [he]
    have hp := trunc_empty_pcbtt tag
      (if b then ElementType.BooleanTrue else ElementType.BooleanFalse) htag
    exact ⟨.inr (read_kind_pcbtt_error _ _ _ hp), .inr (next_pcbtt_error _ _ hp)⟩
  | vnull =>
    have he : encode_value_with_tag tag .vnull
        = encode_primitive tag .Null [] [] := rfl
    rw [he]
    have hp := trunc_empty_pcbtt tag .Null htag
    exact ⟨.inr (read_kind_pcbtt_error _ _ _ hp), .inr (next_pcbtt_error _ _ hp)⟩
  | vchar_str s =>
    simp only [primWF, Bool.and_eq_true, decide_eq_true_eq] at hv
    obtain ⟨⟨hlen64, _⟩, _⟩ := hv
    by_cases hs : s = []
    · subst hs
      have hd : (encode_value_with_tag tag (.vchar_str [])).dropLast
          = encode_primitive tag .UTF8String1ByteLength [] [] := by
        have h1 : encode_value_with_tag tag (.vchar_str [])
            = encode_primitive tag .UTF8String1ByteLength [0] [] := rfl
        rw [h1, encode_primitive, encode_primitive]
        simp only [List.append_nil]
        rw [dropLast_cons_ne _ _ (by simp), dropLast_append_ne _ _ (by simp)]
        simp
      have hp : (TLVReader.new
            ((encode_value_with_tag tag
              (.vchar_str [])).dropLast)).parse_control_byte_for_tag_and_type
          = .ok ([], tag, .Primitive (.Specified (.UTF8String .OneOctet))) := by
        rw [hd]
        simp [pcbtt_encode tag .UTF8String1ByteLength [] [] htag, TLVType.fromElementType]
      refine ⟨.inl ?_, .inl ?_⟩
      · simp only [kind_of, read_kind]
        apply except_map_error
        simp [TLVReader.read_char_str, hp, parse_field_size,
          UTF8StrLen.length_field_size, TLVFieldSize.len_octets_count]
      · exact next_ppl_error _ _ tag _ _ hp rfl
    · by_cases h1 : s.length ≤ 255
      · have hinfo : str_len_info s.length = (.UTF8String1ByteLength, toLE 1 s.length) := by
          simp [str_len_info, h1]
        have he : encode_value_with_tag tag (.vchar_str s)
            = encode_primitive tag .UTF8String1ByteLength (toLE 1 s.length) s := by
          simp [encode_value_with_tag, encode_tlv_str, hinfo]
        rw [he]
        have hpfs : parse_field_size (UTF8StrLen.length_field_size .OneOctet)
            (toLE 1 s.length ++ s.dropLast) = .ok (s.dropLast, s.length) :=
          parse_field_size_1 s.length (by omega) s.dropLast
        refine ⟨.inl ?_, .inl ?_⟩
        · simp only [kind_of, read_kind]
          apply except_map_error
          exact trunc_char_str_read tag _ .OneOctet (toLE 1 s.length) s htag hs rfl hpfs
        · exact trunc_spec_next tag _ (.UTF8String .OneOctet) (toLE 1 s.length) s htag hs
            rfl hpfs rfl
      · by_cases h2 : s.length ≤ 65535
        · have hinfo : str_len_info s.length
              = (.UTF8String2ByteLength, toLE 2 s.length) := by
            simp [str_len_info, h1, h2]
          have he : encode_value_with_tag tag (.vchar_str s)
              = encode_primitive tag .UTF8String2ByteLength (toLE 2 s.length) s := by
            simp [encode_value_with_tag, encode_tlv_str, hinfo]
          rw [he]
          have hpfs : parse_field_size (UTF8StrLen.length_field_size .TwoOctets)
              (toLE 2 s.length ++ s.dropLast) = .ok (s.dropLast, s.length) :=
            parse_field_size_2 s.length (by omega) s.dropLast
          refine ⟨.inl ?_, .inl ?_⟩
          · simp only [kind_of, read_kind]
            apply except_map_error
            exact trunc_char_str_read tag _ .TwoOctets (toLE 2 s.length) s htag hs rfl hpfs
          · exact trunc_spec_next tag _ (.UTF8String .TwoOctets) (toLE 2 s.length) s htag hs
              rfl hpfs rfl
        · by_cases h3 : s.length ≤ 4294967295
          · have hinfo : str_len_info s.length
                = (.UTF8String4ByteLength, toLE 4 s.length) := by
              simp [str_len_info, h1, h2, h3]
            have he : encode_value_with_tag tag (.vchar_str s)
                = encode_primitive tag .UTF8String4ByteLength (toLE 4 s.length) s := by
              simp [encode_value_with_tag, encode_tlv_str, hinfo]
            rw [he]
            have hpfs : parse_field_size (UTF8StrLen.length_field_size .FourOctets)
                (toLE 4 s.length ++ s.dropLast) = .ok (s.dropLast, s.length) :=
              parse_field_size_4 s.length (by omega) s.dropLast
            refine ⟨.inl ?_, .inl ?_⟩
            · simp only [kind_of, read_kind]
              apply except_map_error
              exact trunc_char_str_read tag _ .FourOctets (toLE 4 s.length) s htag hs rfl
                hpfs
            · exact trunc_spec_next tag _ (.UTF8String .FourOctets) (toLE 4 s.length) s htag
                hs rfl hpfs rfl
          · have hinfo : str_len_info s.length
                = (.UTF8String8ByteLength, toLE 8 s.length) := by
              simp [str_len_info, h1, h2, h3]
            have he : encode_value_with_tag tag (.vchar_str s)
                = encode_primitive tag .UTF8String8ByteLength (toLE 8 s.length) s := by
              simp [encode_value_with_tag, encode_tlv_str, hinfo]
            rw [he]
            have hpfs : parse_field_size (UTF8StrLen.length_field_size .EightOctets)
                (toLE 8 s.length ++ s.dropLast) = .ok (s.dropLast, s.length) :=
              parse_field_size_8 s.length (by omega) s.dropLast
            refine ⟨.inl ?_, .inl ?_⟩
            · simp only [kind_of, read_kind]
              apply except_map_error
              exact trunc_char_str_read tag _ .EightOctets (toLE 8 s.length) s htag hs rfl
                hpfs
            · exact trunc_spec_next tag _ (.UTF8String .EightOctets) (toLE 8 s.length) s
                htag hs rfl hpfs rfl
  | vbyte_str s =>
    simp only [primWF, Bool.and_eq_true, decide_eq_true_eq] at hv
    obtain ⟨hlen64, _⟩ := hv
    by_cases hs : s = []
    · subst hs
      have hd : (encode_value_with_tag tag (.vbyte_str [])).dropLast
          = encode_primitive tag .ByteString1ByteLength [] [] := by
        have h1 : encode_value_with_tag tag (.vbyte_str [])
            = encode_primitive tag .ByteString1ByteLength [0] [] := rfl
        rw [h1, encode_primitive, encode_primitive]
        simp only [List.append_nil]
        rw [dropLast_cons_ne _ _ (by simp), dropLast_append_ne _ _ (by simp)]
        simp
      have hp : (TLVReader.new
            ((encode_value_with_tag tag
              (.vbyte_str [])).dropLast)).parse_control_byte_for_tag_and_type
          = .ok ([], tag, .Primitive (.Specified (.ByteString .OneOctet))) := by
        rw [hd]
        simp [pcbtt_encode tag .ByteString1ByteLength [] [] htag, TLVType.fromElementType]
      refine ⟨.inl ?_, .inl ?_⟩
      · simp only [kind_of, read_kind]
        apply except_map_error
        simp [TLVReader.read_byte_str, hp, parse_field_size,
          ByteStrLen.length_field_size, TLVFieldSize.len_octets_count]
      · exact next_ppl_error _ _ tag _ _ hp rfl
    · by_cases h1 : s.length ≤ 255
      · have hinfo : bytes_len_info s.length
            = (.ByteString1ByteLength, toLE 1 s.length) := by
          simp [bytes_len_info, h1]
        have he : encode_value_with_tag tag (.vbyte_str s)
            = encode_primitive tag .ByteString1ByteLength (toLE 1 s.length) s := by
          simp [encode_value_with_tag, encode_tlv_bytes, hinfo]
        rw [he]
        have hpfs : parse_field_size (ByteStrLen.length_field_size .OneOctet)
            (toLE 1 s.length ++ s.dropLast) = .ok (s.dropLast, s.length) :=
          parse_field_size_1 s.length (by omega) s.dropLast
        refine ⟨.inl ?_, .inl ?_⟩
        · simp only [kind_of, read_kind]
          apply except_map_error
          exact trunc_byte_str_read tag _ .OneOctet (toLE 1 s.length) s htag hs rfl hpfs
        · exact trunc_spec_next tag _ (.ByteString .OneOctet) (toLE 1 s.length) s htag hs
            rfl hpfs rfl
      · by_cases h2 : s.length ≤ 65535
        · have hinfo : bytes_len_info s.length
              = (.ByteString2ByteLength, toLE 2 s.length) := by
            simp [bytes_len_info, h1, h2]
          have he : encode_value_with_tag tag (.vbyte_str s)
              = encode_primitive tag .ByteString2ByteLength (toLE 2 s.length) s := by
            simp [encode_value_with_tag, encode_tlv_bytes, hinfo]
          rw [he]
          have hpfs : parse_field_size (ByteStrLen.length_field_size .TwoOctets)
              (toLE 2 s.length ++ s.dropLast) = .ok (s.dropLast, s.length) :=
            parse_field_size_2 s.length (by omega) s.dropLast
          refine ⟨.inl ?_, .inl ?_⟩
          · simp only [kind_of, read_kind]
            apply except_map_error
            exact trunc_byte_str_read tag _ .TwoOctets (toLE 2 s.length) s htag hs rfl hpfs
          · exact trunc_spec_next tag _ (.ByteString .TwoOctets) (toLE 2 s.length) s htag hs
              rfl hpfs rfl
        · by_cases h3 : s.length ≤ 4294967295
          · have hinfo : bytes_len_info s.length
                = (.ByteString4ByteLength, toLE 4 s.length) := by
              simp [bytes_len_info, h1, h2, h3]
            have he : encode_value_with_tag tag (.vbyte_str s)
                = encode_primitive tag .ByteString4ByteLength (toLE 4 s.length) s := by
              simp [encode_value_with_tag, encode_tlv_bytes, hinfo]
            rw [he]
            have hpfs : parse_field_size (ByteStrLen.length_field_size .FourOctets)
                (toLE 4 s.length ++ s.dropLast) = .ok (s.dropLast, s.length) :=
              parse_field_size_4 s.length (by omega) s.dropLast
            refine ⟨.inl ?_, .inl ?_⟩
            · simp only [kind_of, read_kind]
              apply except_map_error
              exact trunc_byte_str_read tag _ .FourOctets (toLE 4 s.length) s htag hs rfl
                hpfs
            · exact trunc_spec_next tag _ (.ByteString .FourOctets) (toLE 4 s.length) s htag
                hs rfl hpfs rfl
          · have hinfo : bytes_len_info s.length
                = (.ByteString8ByteLength, toLE 8 s.length) := by
              simp [bytes_len_info, h1, h2, h3]
            have he : encode_value_with_tag tag (.vbyte_str s)
                = encode_primitive tag .ByteString8ByteLength (toLE 8 s.length) s := by
              simp [encode_value_with_tag, encode_tlv_bytes, hinfo]
            rw [he]
            have hpfs : parse_field_size (ByteStrLen.length_field_size .EightOctets)
                (toLE 8 s.length ++ s.dropLast) = .ok (s.dropLast, s.length) :=
              parse_field_size_8 s.length (by omega) s.dropLast
            refine ⟨.inl ?_, .inl ?_⟩
            · simp only [kind_of, read_kind]
              apply except_map_error
              exact trunc_byte_str_read tag _ .EightOctets (toLE 8 s.length) s htag hs rfl
                hpfs
            · exact trunc_spec_next tag _ (.ByteString .EightOctets) (toLE 8 s.length) s
                htag hs rfl hpfs rfl

/-- Witness for C3: truncating the encoding of the u8 value 255 under context
tag 7 makes the typed accessor and next() fail as stated. -/
theorem c3_truncation_fails_witness :
    tagWF (.ContextSpecific 7) = true ∧ primWF (.vu8 255) = true ∧
    ((read_kind (TLVReader.new
          ((encode_value_with_tag (.ContextSpecific 7) (.vu8 255)).dropLast))
          (kind_of (.vu8 255)) = .error .UnderRun ∨
      read_kind (TLVReader.new
          ((encode_value_with_tag (.ContextSpecific 7) (.vu8 255)).dropLast))
          (kind_of (.vu8 255)) = .error .ParseError) ∧
     ((TLVReader.new
          ((encode_value_with_tag (.ContextSpecific 7) (.vu8 255)).dropLast)).next
        = .error .UnderRun ∨
      (TLVReader.new
          ((encode_value_with_tag (.ContextSpecific 7) (.vu8 255)).dropLast)).next
        = .error .ParseError)) :=
  ⟨by decide, by decide,
    c3_truncation_fails (.ContextSpecific 7) (.vu8 255) (by decide) (by decide)⟩

end MatterTLV
